import Mathlib

/-!
# Verification of the ConversorCatalogos Excel-to-JSON converter

A shallow embedding of `src/converter.py` (an Excel → JSON conversion
pipeline built on pandas) together with proofs about its normalizer,
serializer, CLI driver and module-level control flow.

The program is a linear pipeline: `read_excel_file` (Loader) produces a
pandas DataFrame, `clean_dataframe` (Normalizer) fills missing cells with
`""`, sanitizes column names and stringifies datetime columns, and
`convert_to_json` (Serializer) turns the frame into a list of records and
renders it with `json.dumps` (pretty or compact), optionally writing a file.

`converter.py` contains the whole module TWICE: a Spanish-commented first
half (with its own `if __name__ == "__main__": main()` at line 139) and an
English-commented second half (guard at lines 290-291).  The second set of
definitions is what importers see; the embedding models both sets (`_v1`
suffix for the first) and the module-level double execution.

## Modelling pandas

The embedding reproduces the pandas operations actually used, at the level
of an idealized DataFrame (ordered list of named, dtyped columns; cells are
a closed variant of the values that can appear after `pd.read_excel`):

* `DataFrame.fillna ""` replaces every missing cell (`NaN`/`NaT`/`None`)
  by the empty string.  Filling a string into a column of a non-`object`
  dtype cannot be represented in that dtype's array, so pandas coerces the
  column to `object` dtype; a column without missing cells is untouched.
  This dtype coercion is load-bearing: a datetime column that contained a
  missing value is `object` after the fill and is therefore *not* selected
  by `select_dtypes(include=["datetime", "datetimetz"])` afterwards.
* `df.columns.str.replace(' ', '_').str.replace('[^a-zA-Z0-9_]', '', regex=True)`
  is per-name: every space becomes an underscore, then every character
  outside ASCII letters/digits/underscore is removed.
* `df[col] = df[col].astype(str)` on a selected datetime column replaces
  each cell by Python's `str()` of it; `str(Timestamp)` is the default
  `"YYYY-MM-DD HH:MM:SS"` rendering (plus a `+HH:MM` offset when
  tz-aware), `str(pd.NaT)` is `"NaT"`.
* `df.to_dict('records')` builds one Python dict per row, inserting
  `(column name, cell)` in column order; a duplicate key keeps its first
  position and receives the last value.
* `json.dumps(records, ensure_ascii=False)` (and with `indent=2`) is
  modelled by an executable renderer, and an executable JSON parser is
  provided to state round-trip properties.  `json.dumps` raises
  `TypeError` on values that are not JSON-serializable (e.g. a pandas
  `Timestamp` surviving in an `object` column), modelled by `Option`.

File I/O, `print` and `sys.exit` are modelled by explicit effect records
(list of written files, list of stdout lines, exit code).
-/

/-- A date/time value as loaded by pandas from a spreadsheet
(second resolution suffices for this program), with an optional
timezone offset in minutes for tz-aware values. -/
structure DT where
  year : Nat
  month : Nat
  day : Nat
  hour : Nat
  minute : Nat
  second : Nat
  tzOffsetMin : Option Int := none
deriving Repr, DecidableEq

/-- Left-pad a numeral to two digits, as in Python's datetime rendering. -/
def pad2 (n : Nat) : String :=
  if n < 10 then "0" ++ toString n else toString n

/-- Left-pad a numeral to four digits. -/
def pad4 (n : Nat) : String :=
  if n < 10 then "000" ++ toString n
  else if n < 100 then "00" ++ toString n
  else if n < 1000 then "0" ++ toString n
  else toString n

/-- Rendering of a timezone offset as `+HH:MM` / `-HH:MM`, as appended by
`str()` on a tz-aware pandas `Timestamp`. -/
def tzRender : Option Int → String
  | none => ""
  | some off =>
      (if off < 0 then "-" else "+") ++
        pad2 (off.natAbs / 60) ++ ":" ++ pad2 (off.natAbs % 60)

/-- Python's default `str()` rendering of a pandas `Timestamp`:
`"YYYY-MM-DD HH:MM:SS"` with the offset suffix when tz-aware. -/
def DT.render (t : DT) : String :=
  pad4 t.year ++ "-" ++ pad2 t.month ++ "-" ++ pad2 t.day ++ " " ++
    pad2 t.hour ++ ":" ++ pad2 t.minute ++ ":" ++ pad2 t.second ++
    tzRender t.tzOffsetMin

/-- A cell of the in-memory table: the closed variant of values a cell can
hold after `pd.read_excel` (text, number, boolean, date/time) plus the
missing-value marker (`NaN`/`NaT`/`None`).  Numbers are modelled by `Int`;
nothing in the verified claims depends on fractional values. -/
inductive Cell where
  | str (s : String)
  | num (n : Int)
  | bool (b : Bool)
  | dt (t : DT)
  | na
deriving Repr, DecidableEq

/-- Is this cell the missing-value marker? -/
def Cell.isNA : Cell → Bool
  | .na => true
  | _ => false

/-- Is this cell a native date/time value? -/
def Cell.isDate : Cell → Bool
  | .dt _ => true
  | _ => false

/-- The pandas dtypes relevant to this program. -/
inductive Dtype where
  | object
  | int64
  | float64
  | boolean
  | datetime
  | datetimetz
deriving Repr, DecidableEq

/-- Does `select_dtypes(include=["datetime", "datetimetz"])` select this
dtype? -/
def Dtype.isDatetime : Dtype → Bool
  | .datetime => true
  | .datetimetz => true
  | _ => false

/-- One column of a DataFrame: a header name, the column dtype, and the
cells in row order. -/
structure Column where
  name : String
  dtype : Dtype
  cells : List Cell
deriving Repr, DecidableEq

/-- A pandas DataFrame as used by the converter: an ordered list of
columns. -/
abbrev DataFrame := List Column

/-- Number of rows (`df.shape[0]` / `len(df)`). -/
def DataFrame.nrows : DataFrame → Nat
  | [] => 0
  | c :: _ => c.cells.length

/-- Number of columns (`df.shape[1]` / `len(df.columns)`). -/
def DataFrame.ncols (df : DataFrame) : Nat := df.length

/-- The column names, in order (`list(df.columns)`). -/
def DataFrame.names (df : DataFrame) : List String := df.map Column.name

/-- Every row has exactly one value per column: all columns have the same
length (the Table invariant of the data model). -/
def DataFrame.WellFormed (df : DataFrame) : Prop :=
  ∀ col ∈ df, col.cells.length = df.nrows

instance : DecidablePred DataFrame.WellFormed := fun df =>
  inferInstanceAs (Decidable (∀ col ∈ df, col.cells.length = df.nrows))

/-- Source-native typing as guaranteed by the Loader: a native date/time
value only ever sits in a column whose dtype is a datetime dtype (numeric
columns stay numeric, date columns stay a date/time dtype). -/
def DataFrame.DatesTyped (df : DataFrame) : Prop :=
  ∀ col ∈ df, ∀ c ∈ col.cells, c.isDate → col.dtype.isDatetime

instance : DecidablePred DataFrame.DatesTyped := fun df =>
  inferInstanceAs (Decidable (∀ col ∈ df, ∀ c ∈ col.cells, _ → _))

/-- No date-typed column contains a missing cell. -/
def DataFrame.NoMissingDates (df : DataFrame) : Prop :=
  ∀ col ∈ df, col.dtype.isDatetime → ∀ c ∈ col.cells, ¬ c.isNA

instance : DecidablePred DataFrame.NoMissingDates := fun df =>
  inferInstanceAs (Decidable (∀ col ∈ df, _ → ∀ c ∈ col.cells, _))

/-! ## The normalizer: `clean_dataframe`

`df.fillna("")`, header sanitation, and datetime-column stringification. -/

/-- `fillna("")` on one cell: a missing cell becomes the empty string. -/
def fillCell (c : Cell) : Cell :=
  if c.isNA then .str "" else c

/-- `fillna("")` on one column.  When a fill actually happens in a column
whose dtype cannot hold a string, pandas coerces the column to `object`
dtype; a column with no missing cells keeps its dtype (the fill is a
no-op there). -/
def fillnaCol (col : Column) : Column :=
  { col with
    cells := col.cells.map fillCell
    dtype := if col.cells.any Cell.isNA then .object else col.dtype }

/-- `df.fillna("")` (converter.py lines 53 and 193). -/
def DataFrame.fillna (df : DataFrame) : DataFrame := df.map fillnaCol

/-- The character class kept by the header regex `[^a-zA-Z0-9_]` (converter.py
lines 60 and 197): ASCII letters, ASCII digits, underscore. -/
def allowedChar (c : Char) : Bool :=
  ('a' ≤ c && c ≤ 'z') || ('A' ≤ c && c ≤ 'Z') || ('0' ≤ c && c ≤ '9') || c == '_'

/-- `.str.replace(' ', '_')` on one name: every space becomes an
underscore (the pattern is the single literal space character, so the
replacement is per-character). -/
def spacesToUnderscores (s : String) : String :=
  String.mk (s.data.map fun c => if c = ' ' then '_' else c)

/-- `.str.replace('[^a-zA-Z0-9_]', '', regex=True)` on one name: every
character outside `[A-Za-z0-9_]` is removed. -/
def stripDisallowed (s : String) : String :=
  String.mk (s.data.filter allowedChar)

/-- The header sanitizer applied to one column name (converter.py lines 60
and 197): spaces to underscores first, then strip disallowed characters. -/
def cleanName (s : String) : String :=
  stripDisallowed (spacesToUnderscores s)

/-- `df.columns = df.columns.str.replace(' ', '_').str.replace('[^a-zA-Z0-9_]', '', regex=True)`:
rename every column with `cleanName`. -/
def DataFrame.cleanColumns (df : DataFrame) : DataFrame :=
  df.map fun col => { col with name := cleanName col.name }

/-- Python `str()` of one cell of an `object`/datetime column, as applied
elementwise by `.astype(str)`. -/
def cellAstypeStr (c : Cell) : Cell :=
  match c with
  | .str s => .str s
  | .num n => .str (toString n)
  | .bool b => .str (if b then "True" else "False")
  | .dt t => .str t.render
  | .na => .str "NaT"

/-- One pandas label assignment `df[name] = df[name].astype(str)`: the
selection and the assignment go by label, so *every* column carrying the
label is stringified (with non-unique labels pandas sets them all) and
its dtype becomes `object`. -/
def stringifyLabel (df : DataFrame) (name : String) : DataFrame :=
  df.map fun col =>
    if col.name = name then
      { col with dtype := .object, cells := col.cells.map cellAstypeStr }
    else col

/-- `for col in df.select_dtypes(include=["datetime", "datetimetz"]): df[col] = df[col].astype(str)`
(converter.py lines 56-57 and 200-201): `select_dtypes` picks the
datetime-dtyped columns up front; iterating over the selection yields
their labels, and each `df[col] = df[col].astype(str)` in the loop body
is a label assignment.  With unique labels this stringifies exactly the
datetime-dtyped columns; with duplicate labels (possible after header
sanitation in the second definition set) it also stringifies every
non-datetime column sharing a selected label. -/
def DataFrame.convertDatetimeCols (df : DataFrame) : DataFrame :=
  ((df.filter fun col => col.dtype.isDatetime).map Column.name).foldl stringifyLabel df

/-- Python's `repr` of a list of strings, used by the progress prints
(`list(df.columns)`). -/
def pyStrListRepr (names : List String) : String :=
  let q := String.singleton (Char.ofNat 39)
  "[" ++ String.intercalate ", " (names.map fun s => q ++ s ++ q) ++ "]"

/-- `clean_dataframe` — second definition set, converter.py lines 182-208,
the binding importers of the module see.  Returns the cleaned frame and
the lines printed.  Order of operations: fill missing values, sanitize
headers, then stringify datetime columns. -/
def clean_dataframe (df : DataFrame) : DataFrame × List String :=
  let df1 := df.fillna
  let original_columns := df1.names
  let df2 := df1.cleanColumns
  let df3 := df2.convertDatetimeCols
  (df3,
    ["✓ Cleaned DataFrame"] ++
      (if original_columns ≠ df3.names then
        ["  - Original columns: " ++ pyStrListRepr original_columns,
         "  - Cleaned columns: " ++ pyStrListRepr df3.names]
      else []))

/-- `clean_dataframe` — first definition set, converter.py lines 43-67.
Same steps, but the datetime columns are stringified *before* the headers
are sanitized. -/
def clean_dataframe_v1 (df : DataFrame) : DataFrame × List String :=
  let df1 := df.fillna
  let df2 := df1.convertDatetimeCols
  let original_columns := df2.names
  let df3 := df2.cleanColumns
  (df3,
    ["✓ DataFrame limpiado"] ++
      (if original_columns ≠ df3.names then
        ["  - Columnas originales: " ++ pyStrListRepr original_columns,
         "  - Columnas limpias: " ++ pyStrListRepr df3.names]
      else []))

/-! ## The serializer: `df.to_dict('records')` and `json.dumps` -/

/-- Insertion into a Python dict: an existing key keeps its position and
receives the new value, a new key is appended. -/
def upsert (r : List (String × Cell)) (k : String) (v : Cell) : List (String × Cell) :=
  match r with
  | [] => [(k, v)]
  | (k1, v1) :: rest => if k1 = k then (k1, v) :: rest else (k1, v1) :: upsert rest k v

/-- One record of `df.to_dict('records')`: the dict built by inserting
`(column name, cell at row i)` in column order. -/
def rowRecord (df : DataFrame) (i : Nat) : List (String × Cell) :=
  df.foldl (fun r col =>
    match col.cells.get? i with
    | some v => upsert r col.name v
    | none => r) []

/-- `df.to_dict('records')` (converter.py lines 81 and 223): one dict per
row. -/
def DataFrame.toRecords (df : DataFrame) : List (List (String × Cell)) :=
  (List.range df.nrows).map (rowRecord df)

/-- A JSON value, as serializable by `json.dumps` from the cells this
program produces. -/
inductive JValue where
  | jstr (s : String)
  | jnum (n : Int)
  | jbool (b : Bool)
  | jnull
deriving Repr, DecidableEq

/-- The JSON document shape this program emits: an array of objects with
scalar values. -/
abbrev JDoc := List (List (String × JValue))

/-- `json.dumps` serialization of one cell: strings, numbers and booleans
are serializable; a surviving native date/time value or missing marker is
not (`json.dumps` raises `TypeError` on a pandas `Timestamp`, and `NaN`
has no strict-JSON rendering). -/
def Cell.toJson? : Cell → Option JValue
  | .str s => some (.jstr s)
  | .num n => some (.jnum n)
  | .bool b => some (.jbool b)
  | .dt _ => none
  | .na => none

/-- Serialize one record, failing on any non-serializable value. -/
def recordToJson? (r : List (String × Cell)) : Option (List (String × JValue)) :=
  r.mapM fun kv => (Cell.toJson? kv.2).map fun j => (kv.1, j)

/-- The abstract JSON document `json.dumps` encodes from
`df.to_dict('records')`, when every value is serializable. -/
def DataFrame.toJsonDoc? (df : DataFrame) : Option JDoc :=
  df.toRecords.mapM recordToJson?

/-! ### Rendering (`json.dumps`)

With `ensure_ascii=False`, `json.dumps` escapes only `"`, `\` and control
characters; the two calls in `convert_to_json` differ only in whitespace
(`indent=2` versus the single-line default), captured by a `Layout` of
pure-whitespace paddings around the fixed punctuation. -/

/-- Hex digit character for a value below 16 (lowercase, as in Python's
`\uXXXX` escapes). -/
def hexDigitChar (d : Nat) : Char :=
  if d < 10 then Char.ofNat (48 + d) else Char.ofNat (87 + d)

/-- `json.dumps(..., ensure_ascii=False)` escaping of one character:
quote and backslash are escaped, control characters get their short or
`\u00XX` escapes, everything else (non-ASCII included) is kept literal. -/
def escChar (c : Char) : List Char :=
  if c = '"' then ['\\', '"']
  else if c = '\\' then ['\\', '\\']
  else if c = '\n' then ['\\', 'n']
  else if c = '\t' then ['\\', 't']
  else if c = '\r' then ['\\', 'r']
  else if c.toNat = 8 then ['\\', 'b']
  else if c.toNat = 12 then ['\\', 'f']
  else if c.toNat < 32 then
    ['\\', 'u', '0', '0', hexDigitChar (c.toNat / 16), hexDigitChar (c.toNat % 16)]
  else [c]

/-- Escape a whole string. -/
def escapeChars (l : List Char) : List Char := (l.map escChar).flatten

/-- A JSON string literal. -/
def renderString (s : String) : List Char :=
  '"' :: escapeChars s.data ++ ['"']

/-- Decimal digits of a positive natural number, most significant first
(`fuel` bounds the number of divisions; structural recursion keeps the
definition kernel-reducible). -/
def natDecimalAux : Nat → Nat → List Char
  | 0, _ => []
  | fuel + 1, n =>
      if n = 0 then []
      else natDecimalAux fuel (n / 10) ++ [Char.ofNat (48 + n % 10)]

/-- Decimal digits of a natural number, most significant first. -/
def natDecimal (n : Nat) : List Char :=
  if n = 0 then ['0'] else natDecimalAux n n

/-- Python's decimal rendering of an integer. -/
def intDecimal : Int → List Char
  | .ofNat n => natDecimal n
  | .negSucc n => '-' :: natDecimal (n + 1)

/-- Render one scalar JSON value. -/
def renderJValue : JValue → List Char
  | .jstr s => renderString s
  | .jnum n => intDecimal n
  | .jbool b => if b then ['t', 'r', 'u', 'e'] else ['f', 'a', 'l', 's', 'e']
  | .jnull => ['n', 'u', 'l', 'l']

/-- The whitespace `json.dumps` places around the fixed punctuation:
after `[` / `{`, after the separating commas, and before `]` / `}`. -/
structure Layout where
  arrOpen : List Char
  arrSep : List Char
  arrClose : List Char
  objOpen : List Char
  objSep : List Char
  objClose : List Char

/-- Single-line layout of `json.dumps(records, ensure_ascii=False)`
(default separators `', '` and `': '`). -/
def compactLayout : Layout :=
  { arrOpen := [], arrSep := [' '], arrClose := []
    objOpen := [], objSep := [' '], objClose := [] }

/-- Layout of `json.dumps(records, indent=2, ensure_ascii=False)`: records
are indented two spaces, keys four; the item separator becomes `','`
followed by the newline and indent. -/
def prettyLayout : Layout :=
  { arrOpen := ['\n', ' ', ' '], arrSep := ['\n', ' ', ' '], arrClose := ['\n']
    objOpen := ['\n', ' ', ' ', ' ', ' '], objSep := ['\n', ' ', ' ', ' ', ' ']
    objClose := ['\n', ' ', ' '] }

/-- One `"key": value` pair (the key separator `': '` is common to both
modes). -/
def renderPair (p : String × JValue) : List Char :=
  renderString p.1 ++ ':' :: ' ' :: renderJValue p.2

/-- One record as a JSON object (an empty dict renders as braces with no
padding, in both modes). -/
def renderRecord (L : Layout) : List (String × JValue) → List Char
  | [] => ['{', '}']
  | p :: ps =>
      '{' :: L.objOpen ++ renderPair p ++
        (ps.map fun q => ',' :: L.objSep ++ renderPair q).flatten ++
        L.objClose ++ ['}']

/-- The document as a JSON array (an empty array renders as `[]`). -/
def renderDoc (L : Layout) : JDoc → List Char
  | [] => ['[', ']']
  | r :: rs =>
      '[' :: L.arrOpen ++ renderRecord L r ++
        (rs.map fun q => ',' :: L.arrSep ++ renderRecord L q).flatten ++
        L.arrClose ++ [']']

/-- `json.dumps(records, indent=2, ensure_ascii=False)` or
`json.dumps(records, ensure_ascii=False)` according to `pretty`. -/
def json_dumps (doc : JDoc) (pretty : Bool) : String :=
  String.mk (renderDoc (if pretty then prettyLayout else compactLayout) doc)

/-! ## `convert_to_json` and its effects -/

/-- Outcome of `convert_to_json`: the returned JSON string together with
the files written and the lines printed, or the uncaught `TypeError`
raised by `json.dumps` on a non-serializable value. -/
inductive ConvResult where
  | success (json : String) (written : List (String × String)) (output : List String)
  | typeError
deriving Repr, DecidableEq

/-- `convert_to_json` (converter.py lines 210-237; the lines 69-92 version
differs only in comments): builds `df.to_dict('records')`, renders it
with `json.dumps` (pretty or compact), then — only if an output path was
given — writes exactly that string to the path (UTF-8, create or
truncate) and prints a confirmation. -/
def convert_to_json (df : DataFrame) (output_file : Option String := none)
    (pretty : Bool := true) : ConvResult :=
  match df.toJsonDoc? with
  | none => .typeError
  | some records =>
    let json_str := json_dumps records pretty
    match output_file with
    | some p => .success json_str [(p, json_str)] ["✓ Saved JSON to: " ++ p]
    | none => .success json_str [] []

/-- `convert_to_json` — first definition set, converter.py lines 69-92:
identical to the second apart from the Spanish confirmation message. -/
def convert_to_json_v1 (df : DataFrame) (output_file : Option String := none)
    (pretty : Bool := true) : ConvResult :=
  match df.toJsonDoc? with
  | none => .typeError
  | some records =>
    let json_str := json_dumps records pretty
    match output_file with
    | some p => .success json_str [(p, json_str)] ["✓ JSON guardado en: " ++ p]
    | none => .success json_str [] []

/-! ## The Loader: `read_excel_file` -/

/-- The environment's answer to `pd.read_excel(file_path, sheet_name)`:
either a frame, or the `FileNotFoundError` raised for a missing path, or
any other exception (unparsable file, unknown sheet name, ...) with its
message. -/
inductive ReadOutcome where
  | ok (df : DataFrame)
  | fileNotFound
  | readError (msg : String)
deriving Repr, DecidableEq

/-- Result of `read_excel_file`: the frame plus progress output, or
`sys.exit(code)` after printing. -/
inductive ReadResult where
  | success (df : DataFrame) (output : List String)
  | exit (output : List String) (code : Nat)
deriving Repr, DecidableEq

/-- `read_excel_file` — second definition set, converter.py lines 153-180
(lines 14-41 are the same logic with Spanish messages): on success prints
the progress lines and returns the frame; a `FileNotFoundError` or any
other exception prints a diagnostic and exits with status 1. -/
def read_excel_file (file_path : String) (sheet_name : Option String)
    (outcome : ReadOutcome) : ReadResult :=
  let q := String.singleton (Char.ofNat 39)
  match outcome with
  | .ok df =>
      .success df
        [(match sheet_name with
          | some s => "✓ Read sheet " ++ q ++ s ++ q ++ " from " ++ file_path
          | none => "✓ Read Excel file: " ++ file_path),
         "  - Shape: " ++ toString df.nrows ++ " rows, " ++ toString df.ncols ++ " columns",
         "  - Columns: " ++ pyStrListRepr df.names]
  | .fileNotFound => .exit ["✗ File not found: " ++ file_path] 1
  | .readError e => .exit ["✗ Error reading Excel file: " ++ e] 1

/-- `read_excel_file` — first definition set, converter.py lines 14-41
(Spanish messages). -/
def read_excel_file_v1 (file_path : String) (sheet_name : Option String)
    (outcome : ReadOutcome) : ReadResult :=
  let q := String.singleton (Char.ofNat 39)
  match outcome with
  | .ok df =>
      .success df
        [(match sheet_name with
          | some s => "✓ Hoja " ++ q ++ s ++ q ++ " leída desde " ++ file_path
          | none => "✓ Archivo Excel leído: " ++ file_path),
         "  - Forma: " ++ toString df.nrows ++ " filas, " ++ toString df.ncols ++ " columnas",
         "  - Columnas: " ++ pyStrListRepr df.names]
  | .fileNotFound => .exit ["✗ Archivo no encontrado: " ++ file_path] 1
  | .readError e => .exit ["✗ Error al leer el archivo Excel: " ++ e] 1

/-! ## The CLI driver: `main` -/

/-- The parsed command line (`argparse` surface). -/
structure Args where
  excel_file : String
  sheet : Option String := none
  output : Option String := none
  compact : Bool := false
  preview : Bool := false
deriving Repr, DecidableEq

/-- Observable behaviour of one process run: stdout lines, files written
(path, content, in order), exit status. -/
structure RunEffects where
  stdout : List String
  written : List (String × String)
  exitCode : Nat
deriving Repr, DecidableEq

/-- The diagnostic block printed by `--preview` (`df.head()` and
`df.dtypes`; their pandas table rendering is abstracted to marker lines —
no claim concerns their exact text). -/
def previewLines (df : DataFrame) : List String :=
  ["", "📋 Data Preview:", "<df.head of " ++ toString df.ncols ++ " columns>",
   "", "Data types:", "<df.dtypes>", ""]

/-- The banner `main` prints before loading. -/
def headerLines (args : Args) (title sheetWord : String) (outWord : String) : List String :=
  [title,
   "==============================",
   (if title = "Excel to JSON Converter" then "Excel file: " else "Archivo Excel: ") ++ args.excel_file,
   (if title = "Excel to JSON Converter" then "Sheet: " else "Hoja: ") ++ args.sheet.getD sheetWord] ++
  (match args.output with
   | some o => [outWord ++ o]
   | none => []) ++ [""]

/-- `main` — second definition set, converter.py lines 239-288 (named
`main_v2` here only because `main` is reserved by Lean): validates
that the input path exists, loads, optionally previews, cleans, converts,
echoes the JSON when no output path was given, and prints the success
summary.  `pathExists` models `Path(args.excel_file).exists()` and
`outcome` the subsequent `pd.read_excel` call. -/
def main_v2 (args : Args) (pathExists : Bool) (outcome : ReadOutcome) : RunEffects :=
  if ¬ pathExists then
    ⟨["✗ Excel file not found: " ++ args.excel_file], [], 1⟩
  else
    let header := headerLines args "Excel to JSON Converter" "First sheet" "Output: "
    match read_excel_file args.excel_file args.sheet outcome with
    | .exit out code => ⟨header ++ out, [], code⟩
    | .success df rout =>
      let pout := if args.preview then previewLines df else []
      let (df2, cout) := clean_dataframe df
      match convert_to_json df2 args.output (¬ args.compact) with
      | .typeError => ⟨header ++ rout ++ pout ++ cout, [], 1⟩
      | .success json_str written wout =>
        let echo := if args.output.isNone then ["", "📄 JSON Output:", json_str] else []
        ⟨header ++ rout ++ pout ++ cout ++ wout ++ echo ++
          ["", "✅ Successfully converted Excel to JSON!",
           "   Records: " ++ toString df2.nrows,
           "   Fields: " ++ toString df2.ncols],
         written, 0⟩

/-- `main` — first definition set, converter.py lines 94-137 (Spanish
messages, same control flow, built on the first definition set). -/
def main_v1 (args : Args) (pathExists : Bool) (outcome : ReadOutcome) : RunEffects :=
  if ¬ pathExists then
    ⟨["✗ Archivo Excel no encontrado: " ++ args.excel_file], [], 1⟩
  else
    let header := headerLines args "Convertidor de Excel a JSON" "Primera hoja" "Salida: "
    match read_excel_file_v1 args.excel_file args.sheet outcome with
    | .exit out code => ⟨header ++ out, [], code⟩
    | .success df rout =>
      let pout := if args.preview then
        ["", "📋 Vista previa de los datos:", "<df.head of " ++ toString df.ncols ++ " columns>",
         "", "Tipos de datos:", "<df.dtypes>", ""] else []
      let (df2, cout) := clean_dataframe_v1 df
      match convert_to_json_v1 df2 args.output (¬ args.compact) with
      | .typeError => ⟨header ++ rout ++ pout ++ cout, [], 1⟩
      | .success json_str written wout =>
        let echo := if args.output.isNone then ["", "📄 Salida JSON:", json_str] else []
        ⟨header ++ rout ++ pout ++ cout ++ wout ++ echo ++
          ["", "✅ ¡Conversión de Excel a JSON exitosa!",
           "   Registros: " ++ toString df2.nrows,
           "   Campos: " ++ toString df2.ncols],
         written, 0⟩

/-! ## Module-level control flow

`converter.py` top level is: first definition set, `if __name__ ==
"__main__": main()` (line 139), second definition set, the same guard
(lines 290-291).  Python executes these statements in order, rebinding
the function names in between; an uncaught exception or `sys.exit` stops
the whole process. -/

/-- A top-level statement of `converter.py` as relevant to control flow:
a block of `def`s (tagged with which definition set it is) or the
`if __name__ == "__main__": main()` guard. -/
inductive TopStmt where
  | defs (v : Nat)
  | guardMain
deriving Repr, DecidableEq

/-- The statement list of `converter.py`. -/
def converterModule : List TopStmt := [.defs 1, .guardMain, .defs 2, .guardMain]

/-- Which `main` a given definition-set version binds. -/
def mainOf : Nat → Args → Bool → ReadOutcome → RunEffects
  | 1 => main_v1
  | _ => main_v2

/-- Execute the module's top-level statements: `defs` rebinds `main`,
`guardMain` (when the module is `__main__`) runs the currently bound
`main`, whose `sys.exit` / uncaught exception (nonzero exit) terminates
the process.  Returns the accumulated process effects and the list of
definition-set versions of `main` that were invoked. -/
def execStmts (isMain : Bool) (args : Args) (pathExists : Bool) (outcome : ReadOutcome) :
    List TopStmt → Nat → RunEffects × List Nat
  | [], _ => (⟨[], [], 0⟩, [])
  | .defs v :: rest, _ => execStmts isMain args pathExists outcome rest v
  | .guardMain :: rest, v =>
      if isMain then
        let r := mainOf v args pathExists outcome
        if r.exitCode = 0 then
          let (r2, vs) := execStmts isMain args pathExists outcome rest v
          (⟨r.stdout ++ r2.stdout, r.written ++ r2.written, r2.exitCode⟩, v :: vs)
        else (r, [v])
      else execStmts isMain args pathExists outcome rest v

/-- Run `python converter.py ...`: the module executes as `__main__`. -/
def runScript (args : Args) (pathExists : Bool) (outcome : ReadOutcome) :
    RunEffects × List Nat :=
  execStmts true args pathExists outcome converterModule 0

/-! ## A JSON parser

An executable parser for the document shape this program emits (an array
of flat objects with string/number/boolean/null values), used to state
"parsing the produced JSON" claims.  It accepts arbitrary inter-token
whitespace, JSON string escapes and signed decimal integers. -/

/-- JSON insignificant whitespace. -/
def isJsonWs (c : Char) : Bool :=
  c = ' ' || c = '\n' || c = '\t' || c = '\r'

/-- Skip insignificant whitespace. -/
def skipWs (l : List Char) : List Char := l.dropWhile isJsonWs

/-- Value of one hex digit. -/
def hexVal? (c : Char) : Option Nat :=
  if '0' ≤ c && c ≤ '9' then some (c.toNat - 48)
  else if 'a' ≤ c && c ≤ 'f' then some (c.toNat - 87)
  else if 'A' ≤ c && c ≤ 'F' then some (c.toNat - 55)
  else none

/-- Parse the body of a string literal (the opening quote already
consumed) up to its closing quote; returns the decoded characters and the
rest of the input. -/
def parseStringBody : List Char → Option (List Char × List Char)
  | [] => none
  | c :: rest =>
      if c = '"' then some ([], rest)
      else if c = '\\' then
        match rest with
        | [] => none
        | e :: r2 =>
            if e = '"' then (parseStringBody r2).map fun p => ('"' :: p.1, p.2)
            else if e = '\\' then (parseStringBody r2).map fun p => ('\\' :: p.1, p.2)
            else if e = '/' then (parseStringBody r2).map fun p => ('/' :: p.1, p.2)
            else if e = 'n' then (parseStringBody r2).map fun p => ('\n' :: p.1, p.2)
            else if e = 't' then (parseStringBody r2).map fun p => ('\t' :: p.1, p.2)
            else if e = 'r' then (parseStringBody r2).map fun p => ('\r' :: p.1, p.2)
            else if e = 'b' then (parseStringBody r2).map fun p => (Char.ofNat 8 :: p.1, p.2)
            else if e = 'f' then (parseStringBody r2).map fun p => (Char.ofNat 12 :: p.1, p.2)
            else if e = 'u' then
              match r2 with
              | h1 :: h2 :: h3 :: h4 :: r3 =>
                  match hexVal? h1, hexVal? h2, hexVal? h3, hexVal? h4 with
                  | some a, some b, some c2, some d =>
                      (parseStringBody r3).map fun p =>
                        (Char.ofNat (4096 * a + 256 * b + 16 * c2 + d) :: p.1, p.2)
                  | _, _, _, _ => none
              | _ => none
            else none
      else (parseStringBody rest).map fun p => (c :: p.1, p.2)

/-- Parse a nonempty run of decimal digits. -/
def parseNat (l : List Char) : Option (Nat × List Char) :=
  let ds := l.takeWhile Char.isDigit
  if ds.isEmpty then none
  else some (ds.foldl (fun a c => 10 * a + (c.toNat - 48)) 0, l.dropWhile Char.isDigit)

/-- Parse one scalar JSON value. -/
def parseValue (l : List Char) : Option (JValue × List Char) :=
  match l with
  | [] => none
  | c :: rest =>
      if c = '"' then
        (parseStringBody rest).map fun p => (.jstr (String.mk p.1), p.2)
      else if c = '-' then
        (parseNat rest).map fun p => (.jnum (-(p.1 : Int)), p.2)
      else if c.isDigit then
        (parseNat l).map fun p => (.jnum (p.1 : Int), p.2)
      else if l.take 4 = ['t', 'r', 'u', 'e'] then some (.jbool true, l.drop 4)
      else if l.take 5 = ['f', 'a', 'l', 's', 'e'] then some (.jbool false, l.drop 5)
      else if l.take 4 = ['n', 'u', 'l', 'l'] then some (.jnull, l.drop 4)
      else none

/-- Parse the pairs of a nonempty object (the opening brace and any
following whitespace already consumed; the input starts at a key),
through the closing brace.  `fuel` bounds the number of pairs. -/
def parsePairs : Nat → List Char → Option (List (String × JValue) × List Char)
  | 0, _ => none
  | fuel + 1, l =>
      match l with
      | '"' :: r0 =>
          match parseStringBody r0 with
          | none => none
          | some (k, r1) =>
              match skipWs r1 with
              | ':' :: r2 =>
                  match parseValue (skipWs r2) with
                  | none => none
                  | some (v, r3) =>
                      match skipWs r3 with
                      | ',' :: r4 =>
                          (parsePairs fuel (skipWs r4)).map fun p =>
                            ((String.mk k, v) :: p.1, p.2)
                      | '}' :: r4 => some ([(String.mk k, v)], r4)
                      | _ => none
              | _ => none
      | _ => none

/-- Parse one object, including its braces. -/
def parseRecord (fuel : Nat) (l : List Char) : Option (List (String × JValue) × List Char) :=
  match l with
  | '{' :: r0 =>
      match skipWs r0 with
      | [] => none
      | c :: r1 => if c = '}' then some ([], r1) else parsePairs fuel (c :: r1)
  | _ => none

/-- Parse the elements of a nonempty array (the opening bracket and any
following whitespace already consumed), through the closing bracket.
`fuel` bounds the number of elements. -/
def parseRecords : Nat → List Char → Option (JDoc × List Char)
  | 0, _ => none
  | fuel + 1, l =>
      match parseRecord (l.length) l with
      | none => none
      | some (r, r1) =>
          match skipWs r1 with
          | ',' :: r2 => (parseRecords fuel (skipWs r2)).map fun p => (r :: p.1, p.2)
          | ']' :: r2 => some ([r], r2)
          | _ => none

/-- Parse a complete JSON document of the emitted shape; the whole input
must be consumed (up to trailing whitespace). -/
def parseJson (s : String) : Option JDoc :=
  match skipWs s.data with
  | '[' :: r0 =>
      match skipWs r0 with
      | [] => none
      | c :: r1 =>
          if c = ']' then (if skipWs r1 = [] then some [] else none)
          else
            match parseRecords (c :: r1).length (c :: r1) with
            | some (doc, r2) => if skipWs r2 = [] then some doc else none
            | none => none
  | _ => none

/-! ## Lemmas about the header sanitizer -/

/-- A character kept by the sanitizer is not a space, so the
space-to-underscore pass fixes it. -/
theorem spaceChar_not_allowed : allowedChar ' ' = false := by decide

/-- An allowed character is untouched by the space replacement. -/
theorem replSpace_of_allowed {c : Char} (h : allowedChar c = true) :
    (if c = ' ' then '_' else c) = c := by
  rcases eq_or_ne c ' ' with hc | hc
  · subst hc; simp [allowedChar] at h
  · simp [hc]

/-- Every character of a sanitized name is in `[A-Za-z0-9_]`. -/
theorem cleanName_chars_allowed (s : String) :
    ∀ c ∈ (cleanName s).data, allowedChar c = true := by
  intro c hc
  have : c ∈ (spacesToUnderscores s).data.filter allowedChar := by
    simpa [cleanName, stripDisallowed] using hc
  exact List.of_mem_filter this

/-- Sanitizing a sanitized name changes nothing (header cleaning is
idempotent). -/
theorem cleanName_idem (s : String) : cleanName (cleanName s) = cleanName s := by
  have hall : ∀ c ∈ (cleanName s).data, allowedChar c = true := cleanName_chars_allowed s
  have hmap : (cleanName s).data.map (fun c => if c = ' ' then '_' else c) = (cleanName s).data := by
    conv_rhs => rw [← List.map_id ((cleanName s).data)]
    exact List.map_congr_left fun c hc => replSpace_of_allowed (hall c hc)
  have hfilter : ((cleanName s).data).filter allowedChar = (cleanName s).data :=
    List.filter_eq_self.mpr hall
  show stripDisallowed (spacesToUnderscores (cleanName s)) = cleanName s
  rw [spacesToUnderscores, hmap, stripDisallowed, hfilter]

/-! ## Pipeline algebra: the normalizer as fill/rename plus label assignments -/

/-- Stringifying a cell twice is the same as once (`str` of a string is
that string). -/
theorem cellAstypeStr_idem (c : Cell) :
    cellAstypeStr (cellAstypeStr c) = cellAstypeStr c := by
  cases c <;> rfl

/-- `fillna` keeps the cell count of a column. -/
theorem fillnaCol_cells_length (col : Column) :
    (fillnaCol col).cells.length = col.cells.length := by
  simp [fillnaCol]

/-- `fillna` keeps the name of a column. -/
theorem fillnaCol_name (col : Column) : (fillnaCol col).name = col.name := rfl

/-- One column through the empty-fill and the header sanitation — the two
per-column stages that precede the datetime loop in the second
definition set. -/
def prepCol (col : Column) : Column :=
  { fillnaCol col with name := cleanName col.name }

theorem prepCol_name (col : Column) : (prepCol col).name = cleanName col.name := rfl

theorem prepCol_cells (col : Column) : (prepCol col).cells = col.cells.map fillCell := rfl

theorem prepCol_dtype (col : Column) : (prepCol col).dtype = (fillnaCol col).dtype := rfl

theorem prepCol_cells_length (col : Column) :
    (prepCol col).cells.length = col.cells.length := by
  rw [prepCol_cells, List.length_map]

/-- Fill-then-rename is the column-wise `prepCol`. -/
theorem fillna_cleanColumns (df : DataFrame) :
    (df.fillna).cleanColumns = df.map prepCol := by
  simp only [DataFrame.fillna, DataFrame.cleanColumns, List.map_map]
  rfl

/-- The frame computed by `clean_dataframe`: fill and rename every
column, then run the label assignments selected on the renamed frame. -/
theorem clean_dataframe_fst (df : DataFrame) :
    (clean_dataframe df).1 = DataFrame.convertDatetimeCols (df.map prepCol) := by
  rw [show (clean_dataframe df).1 =
      DataFrame.convertDatetimeCols ((df.fillna).cleanColumns) from rfl,
    fillna_cleanColumns]

/-- The frame computed by `clean_dataframe_v1`: the label assignments run
on the filled frame (under the original labels), before sanitation. -/
theorem clean_dataframe_v1_fst (df : DataFrame) :
    (clean_dataframe_v1 df).1 =
      DataFrame.cleanColumns (DataFrame.convertDatetimeCols (df.map fillnaCol)) := rfl

/-- A label assignment keeps the column names. -/
theorem stringifyLabel_names (df : DataFrame) (name : String) :
    DataFrame.names (stringifyLabel df name) = df.names := by
  simp only [DataFrame.names, stringifyLabel, List.map_map]
  apply List.map_congr_left
  intro col _
  by_cases h : col.name = name <;> simp [h]

/-- The whole loop of label assignments keeps the column names. -/
theorem foldl_stringify_names (names : List String) :
    ∀ df : DataFrame, DataFrame.names (names.foldl stringifyLabel df) = df.names := by
  induction names with
  | nil => intro _; rfl
  | cons n rest ih =>
    intro df
    rw [List.foldl_cons, ih, stringifyLabel_names]

/-- The loop of label assignments keeps the column count. -/
theorem foldl_stringify_length (names : List String) :
    ∀ df : DataFrame, (names.foldl stringifyLabel df).length = df.length := by
  induction names with
  | nil => intro _; rfl
  | cons n rest ih =>
    intro df
    rw [List.foldl_cons, ih, stringifyLabel, List.length_map]

/-- Positional effect of the loop of label assignments: a column whose
label is among the assigned ones ends stringified with `object` dtype; a
column whose label is not assigned is untouched. -/
theorem foldl_stringify_get (names : List String) :
    ∀ (df : DataFrame) (i : Nat) (col : Column), df[i]? = some col →
      ∃ col2, (names.foldl stringifyLabel df)[i]? = some col2 ∧
        col2.name = col.name ∧
        ((col.name ∈ names ∧ col2.dtype = Dtype.object ∧
            col2.cells = col.cells.map cellAstypeStr) ∨
          (¬ col.name ∈ names ∧ col2 = col)) := by
  induction names with
  | nil =>
    intro df i col h
    exact ⟨col, h, rfl, Or.inr ⟨by simp, rfl⟩⟩
  | cons n rest ih =>
    intro df i col h
    by_cases hn : col.name = n
    · have h2 : (stringifyLabel df n)[i]? =
          some { col with dtype := Dtype.object, cells := col.cells.map cellAstypeStr } := by
        rw [stringifyLabel, List.getElem?_map, h]
        simp [hn]
      obtain ⟨col2, hget, hname, hbranch⟩ := ih (stringifyLabel df n) i _ h2
      refine ⟨col2, by rw [List.foldl_cons]; exact hget, hname, Or.inl
        ⟨by rw [hn]; exact List.mem_cons_self n rest, ?_, ?_⟩⟩
      · rcases hbranch with ⟨_, hdty, _⟩ | ⟨_, heq⟩
        · exact hdty
        · rw [heq]
      · rcases hbranch with ⟨_, _, hcells⟩ | ⟨_, heq⟩
        · have hcc : col2.cells = (col.cells.map cellAstypeStr).map cellAstypeStr := hcells
          rw [hcc, List.map_map]
          exact List.map_congr_left fun c _ => cellAstypeStr_idem c
        · have hcc : col2 = { col with dtype := Dtype.object, cells := col.cells.map cellAstypeStr } := heq
          rw [hcc]
    · have h2 : (stringifyLabel df n)[i]? = some col := by
        rw [stringifyLabel, List.getElem?_map, h]
        simp [hn]
      obtain ⟨col2, hget, hname, hbranch⟩ := ih (stringifyLabel df n) i col h2
      refine ⟨col2, by rw [List.foldl_cons]; exact hget, hname, ?_⟩
      rcases hbranch with ⟨hm, hdty, hcells⟩ | ⟨hm, heq⟩
      · exact Or.inl ⟨List.mem_cons_of_mem n hm, hdty, hcells⟩
      · refine Or.inr ⟨?_, heq⟩
        intro hmem
        rcases List.mem_cons.1 hmem with h3 | h3
        · exact hn h3
        · exact hm h3

/-- Membership effect of the loop of label assignments: every column of
the result is a column of the input, untouched or stringified. -/
theorem foldl_stringify_mem (names : List String) :
    ∀ (df : DataFrame), ∀ col2 ∈ names.foldl stringifyLabel df,
      ∃ col, col ∈ df ∧ col2.name = col.name ∧
        col2.cells.length = col.cells.length ∧
        (col2.cells = col.cells ∨ col2.cells = col.cells.map cellAstypeStr) := by
  intro df col2 h
  obtain ⟨i, hi⟩ := List.getElem?_of_mem h
  have hlen : i < df.length := by
    have h1 : i < (names.foldl stringifyLabel df).length :=
      List.getElem?_eq_some_iff.1 hi |>.choose
    rw [foldl_stringify_length] at h1
    exact h1
  obtain ⟨col, hcol⟩ : ∃ col, df[i]? = some col :=
    ⟨df[i], List.getElem?_eq_getElem hlen⟩
  obtain ⟨col2b, hget, hname, hbranch⟩ := foldl_stringify_get names df i col hcol
  rw [hi] at hget
  obtain rfl : col2 = col2b := by
    injection hget
  refine ⟨col, List.getElem?_mem hcol, hname, ?_, ?_⟩
  · rcases hbranch with ⟨_, _, hc⟩ | ⟨_, rfl⟩
    · rw [hc, List.length_map]
    · rfl
  · rcases hbranch with ⟨_, _, hc⟩ | ⟨_, rfl⟩
    · exact Or.inr hc
    · exact Or.inl rfl

/-- Row count of a frame from its first column. -/
theorem nrows_of_get0 (l : DataFrame) (col : Column) (h : l[0]? = some col) :
    DataFrame.nrows l = col.cells.length := by
  cases l with
  | nil => simp at h
  | cons c t =>
    rw [List.getElem?_cons_zero, Option.some.injEq] at h
    subst h
    rfl

/-- The loop of label assignments keeps the row count. -/
theorem foldl_stringify_nrows (names : List String) (df : DataFrame) :
    DataFrame.nrows (names.foldl stringifyLabel df) = df.nrows := by
  cases df with
  | nil =>
    have hnil : ∀ ns : List String, ns.foldl stringifyLabel ([] : DataFrame) = [] := by
      intro ns
      induction ns with
      | nil => rfl
      | cons n rest ih => rw [List.foldl_cons]; exact ih
    rw [hnil]
  | cons c t =>
    obtain ⟨col2, hget, _, hbranch⟩ :=
      foldl_stringify_get names (c :: t) 0 c List.getElem?_cons_zero
    rw [nrows_of_get0 _ _ hget]
    rcases hbranch with ⟨_, _, hc⟩ | ⟨_, rfl⟩
    · rw [hc, List.length_map]; rfl
    · rfl

/-- A datetime-dtyped column's label is among the selected labels. -/
theorem mem_selected_names (df : DataFrame) (col : Column) (h : col ∈ df)
    (hdt : col.dtype.isDatetime = true) :
    col.name ∈ (df.filter fun c => c.dtype.isDatetime).map Column.name :=
  List.mem_map_of_mem Column.name (List.mem_filter.mpr ⟨h, hdt⟩)

/-- The normalizer maps the column names through the sanitizer. -/
theorem clean_names (df : DataFrame) :
    DataFrame.names (clean_dataframe df).1 = df.names.map cleanName := by
  rw [clean_dataframe_fst, DataFrame.convertDatetimeCols, foldl_stringify_names]
  simp only [DataFrame.names, List.map_map]
  exact List.map_congr_left fun col _ => prepCol_name col

/-- The normalizer keeps the row count. -/
theorem clean_nrows (df : DataFrame) :
    DataFrame.nrows (clean_dataframe df).1 = df.nrows := by
  rw [clean_dataframe_fst, DataFrame.convertDatetimeCols, foldl_stringify_nrows]
  cases df <;> simp [DataFrame.nrows, prepCol_cells_length]

/-- The normalizer keeps the column count. -/
theorem clean_ncols (df : DataFrame) :
    DataFrame.ncols (clean_dataframe df).1 = df.ncols := by
  simp only [DataFrame.ncols, clean_dataframe_fst, DataFrame.convertDatetimeCols,
    foldl_stringify_length, List.length_map]

/-- The normalizer preserves well-formedness. -/
theorem clean_wellFormed (df : DataFrame) (hwf : df.WellFormed) :
    ((clean_dataframe df).1).WellFormed := by
  intro col2 hcol2
  rw [clean_dataframe_fst, DataFrame.convertDatetimeCols] at hcol2
  obtain ⟨colm, hcolm, _, hlen, _⟩ := foldl_stringify_mem _ _ col2 hcol2
  obtain ⟨col0, hcol0, rfl⟩ := List.mem_map.1 hcolm
  rw [hlen, prepCol_cells_length, hwf col0 hcol0, ← clean_nrows df]

/-! ## Claim theorems: the normalizer -/

/-- **C2** — header sanitation: every sanitized name consists only of
ASCII letters, digits and underscores; the sanitizer is the
space-to-underscore pass followed by removal (not replacement) of the
remaining disallowed characters, so `"A B-C"` becomes `"A_BC"`,
`"Clave SAT"` becomes `"Clave_SAT"`, `"Fecha (ISO)"` becomes
`"Fecha_ISO"`, and the non-ASCII letter of `"Código"` is stripped,
giving `"Cdigo"`. -/
theorem C2_header_sanitation :
    (∀ s : String, ((cleanName s).data.all allowedChar) = true) ∧
    (∀ s : String, cleanName s = stripDisallowed (spacesToUnderscores s)) ∧
    cleanName "A B-C" = "A_BC" ∧
    cleanName "Clave SAT" = "Clave_SAT" ∧
    cleanName "Fecha (ISO)" = "Fecha_ISO" ∧
    cleanName "Código" = "Cdigo" := by
  refine ⟨fun s => ?_, fun _ => rfl, by decide, by decide, by decide, by decide⟩
  exact List.all_eq_true.mpr fun c hc => cleanName_chars_allowed s c hc

/-- **C7** — header cleaning is idempotent: sanitizing an
already-sanitized column name yields the same name. -/
theorem C7_cleanName_idempotent :
    ∀ s : String, cleanName (cleanName s) = cleanName s :=
  cleanName_idem

/-- **C3** (amended) — date/time canonicalization: under either
definition set, every column of original datetime dtype *containing no
missing values* is converted cell-by-cell to the default string
rendering (selection is by dtype, which header sanitation does not
touch, so the same columns are detected in both orders).  Two
restrictions are forced (see `C3_counterexample`): a datetime column
containing `NaT` is coerced to `object` dtype by the empty-fill and
escapes conversion entirely; and when a sanitized name collides with a
datetime column's sanitized name, the second definition set's by-label
assignment `df[col] = df[col].astype(str)` additionally stringifies the
colliding non-datetime column, so the two definition sets do not always
compute the same frame. -/
theorem C3_date_canonicalization :
    (∀ (df : DataFrame) (i : Nat) (col : Column), df[i]? = some col →
      col.dtype.isDatetime = true → (∀ c ∈ col.cells, c.isNA = false) →
      ∃ col2, (clean_dataframe df).1[i]? = some col2 ∧
        col2.dtype = Dtype.object ∧
        col2.cells = col.cells.map cellAstypeStr ∧
        ∀ (j : Nat) (t : DT), col.cells[j]? = some (Cell.dt t) →
          col2.cells[j]? = some (Cell.str t.render)) ∧
    (∀ (df : DataFrame) (i : Nat) (col : Column), df[i]? = some col →
      col.dtype.isDatetime = true → (∀ c ∈ col.cells, c.isNA = false) →
      ∃ col2, (clean_dataframe_v1 df).1[i]? = some col2 ∧
        col2.dtype = Dtype.object ∧
        col2.cells = col.cells.map cellAstypeStr ∧
        ∀ (j : Nat) (t : DT), col.cells[j]? = some (Cell.dt t) →
          col2.cells[j]? = some (Cell.str t.render)) := by
  constructor
  · intro df i col hi hdt hna
    have hany : col.cells.any Cell.isNA = false :=
      List.any_eq_false.mpr fun c hc => by simp [hna c hc]
    have hcells0 : col.cells.map fillCell = col.cells := by
      conv_rhs => rw [← List.map_id col.cells]
      exact List.map_congr_left fun c hc => by simp [fillCell, hna c hc]
    have hfill : fillnaCol col = col := by
      cases col with
      | mk n d cs => simp_all [fillnaCol]
    have hprep : (df.map prepCol)[i]? = some (prepCol col) := by
      rw [List.getElem?_map, hi]; rfl
    have hpdt : (prepCol col).dtype.isDatetime = true := by
      rw [prepCol_dtype, hfill]; exact hdt
    have hsel : (prepCol col).name ∈
        ((df.map prepCol).filter fun c => c.dtype.isDatetime).map Column.name :=
      mem_selected_names (df.map prepCol) (prepCol col) (List.getElem?_mem hprep) hpdt
    rw [clean_dataframe_fst, DataFrame.convertDatetimeCols]
    obtain ⟨col2, hget, hname, hbranch⟩ :=
      foldl_stringify_get _ (df.map prepCol) i (prepCol col) hprep
    rcases hbranch with ⟨_, hodt, hcells⟩ | ⟨hnm, _⟩
    · have hpc : (prepCol col).cells = col.cells := by rw [prepCol_cells]; exact hcells0
      rw [hpc] at hcells
      refine ⟨col2, hget, hodt, hcells, fun j t hjt => ?_⟩
      rw [hcells, List.getElem?_map, hjt]; rfl
    · exact absurd hsel hnm
  · intro df i col hi hdt hna
    have hany : col.cells.any Cell.isNA = false :=
      List.any_eq_false.mpr fun c hc => by simp [hna c hc]
    have hcells0 : col.cells.map fillCell = col.cells := by
      conv_rhs => rw [← List.map_id col.cells]
      exact List.map_congr_left fun c hc => by simp [fillCell, hna c hc]
    have hfill : fillnaCol col = col := by
      cases col with
      | mk n d cs => simp_all [fillnaCol]
    have hfget : (df.map fillnaCol)[i]? = some col := by
      rw [List.getElem?_map, hi, Option.map_some', hfill]
    have hsel : col.name ∈
        ((df.map fillnaCol).filter fun c => c.dtype.isDatetime).map Column.name :=
      mem_selected_names (df.map fillnaCol) col (List.getElem?_mem hfget) hdt
    rw [clean_dataframe_v1_fst, DataFrame.convertDatetimeCols, DataFrame.cleanColumns]
    obtain ⟨colm, hget, _, hbranch⟩ :=
      foldl_stringify_get _ (df.map fillnaCol) i col hfget
    rcases hbranch with ⟨_, hodt, hcells⟩ | ⟨hnm, _⟩
    · refine ⟨{ colm with name := cleanName colm.name }, ?_, hodt, hcells,
        fun j t hjt => ?_⟩
      · rw [List.getElem?_map, hget, Option.map_some']
      · show colm.cells[j]? = some (Cell.str t.render)
        rw [hcells, List.getElem?_map, hjt]; rfl
    · exact absurd hsel hnm

/-- **C3** counterexample — two failures of the claim as stated.  First,
on a date-typed column that contains a missing value
(`[Column "Fecha" datetime [2025-06-18, NaT]]`) the empty-fill coerces
the column to `object` dtype, the datetime conversion therefore skips
it, and cell 0 of the normalized column still holds the raw date value,
not its string rendering.  Second, although detection is by dtype in
both definition sets, the order of sanitation and conversion is
observable: on `["Fecha (ISO)" datetime, "Fecha_ISO" int64]` both names
sanitize to `"Fecha_ISO"`, and the second set's post-rename label
assignment stringifies the integer column too, while the first set
leaves it numeric — the two normalized frames differ. -/
theorem C3_counterexample :
    ((clean_dataframe [⟨"Fecha", Dtype.datetime,
        [Cell.dt ⟨2025, 6, 18, 0, 0, 0, none⟩, Cell.na]⟩]).1 =
      [⟨"Fecha", Dtype.object,
        [Cell.dt ⟨2025, 6, 18, 0, 0, 0, none⟩, Cell.str ""]⟩] ∧
    Cell.dt ⟨2025, 6, 18, 0, 0, 0, none⟩ ≠
      Cell.str (DT.render ⟨2025, 6, 18, 0, 0, 0, none⟩)) ∧
    ((clean_dataframe [⟨"Fecha (ISO)", Dtype.datetime,
        [Cell.dt ⟨2025, 6, 18, 0, 0, 0, none⟩]⟩,
      ⟨"Fecha_ISO", Dtype.int64, [Cell.num 5]⟩]).1 =
      [⟨"Fecha_ISO", Dtype.object, [Cell.str "2025-06-18 00:00:00"]⟩,
       ⟨"Fecha_ISO", Dtype.object, [Cell.str "5"]⟩] ∧
    (clean_dataframe_v1 [⟨"Fecha (ISO)", Dtype.datetime,
        [Cell.dt ⟨2025, 6, 18, 0, 0, 0, none⟩]⟩,
      ⟨"Fecha_ISO", Dtype.int64, [Cell.num 5]⟩]).1 =
      [⟨"Fecha_ISO", Dtype.object, [Cell.str "2025-06-18 00:00:00"]⟩,
       ⟨"Fecha_ISO", Dtype.int64, [Cell.num 5]⟩] ∧
    (clean_dataframe_v1 [⟨"Fecha (ISO)", Dtype.datetime,
        [Cell.dt ⟨2025, 6, 18, 0, 0, 0, none⟩]⟩,
      ⟨"Fecha_ISO", Dtype.int64, [Cell.num 5]⟩]).1 ≠
    (clean_dataframe [⟨"Fecha (ISO)", Dtype.datetime,
        [Cell.dt ⟨2025, 6, 18, 0, 0, 0, none⟩]⟩,
      ⟨"Fecha_ISO", Dtype.int64, [Cell.num 5]⟩]).1) := by
  exact ⟨⟨by decide, by decide⟩, by decide, by decide, by decide⟩

/-- **C3** witness — the amended statement applied, for both definition
sets, to a concrete frame with one date column without missing values. -/
theorem C3_witness :
    (∃ col2, (clean_dataframe [⟨"Fecha (ISO)", Dtype.datetime,
        [Cell.dt ⟨2025, 6, 18, 0, 0, 0, none⟩]⟩]).1[0]? = some col2 ∧
      col2.dtype = Dtype.object ∧
      col2.cells = [Cell.dt ⟨2025, 6, 18, 0, 0, 0, none⟩].map cellAstypeStr ∧
      ∀ (j : Nat) (t : DT),
        ([Cell.dt ⟨2025, 6, 18, 0, 0, 0, none⟩] : List Cell)[j]? = some (Cell.dt t) →
        col2.cells[j]? = some (Cell.str t.render)) ∧
    (∃ col2, (clean_dataframe_v1 [⟨"Fecha (ISO)", Dtype.datetime,
        [Cell.dt ⟨2025, 6, 18, 0, 0, 0, none⟩]⟩]).1[0]? = some col2 ∧
      col2.dtype = Dtype.object ∧
      col2.cells = [Cell.dt ⟨2025, 6, 18, 0, 0, 0, none⟩].map cellAstypeStr ∧
      ∀ (j : Nat) (t : DT),
        ([Cell.dt ⟨2025, 6, 18, 0, 0, 0, none⟩] : List Cell)[j]? = some (Cell.dt t) →
        col2.cells[j]? = some (Cell.str t.render)) :=
  ⟨C3_date_canonicalization.1
    [⟨"Fecha (ISO)", Dtype.datetime, [Cell.dt ⟨2025, 6, 18, 0, 0, 0, none⟩]⟩]
    0 ⟨"Fecha (ISO)", Dtype.datetime, [Cell.dt ⟨2025, 6, 18, 0, 0, 0, none⟩]⟩
    (by decide) (by decide) (by decide),
   C3_date_canonicalization.2
    [⟨"Fecha (ISO)", Dtype.datetime, [Cell.dt ⟨2025, 6, 18, 0, 0, 0, none⟩]⟩]
    0 ⟨"Fecha (ISO)", Dtype.datetime, [Cell.dt ⟨2025, 6, 18, 0, 0, 0, none⟩]⟩
    (by decide) (by decide) (by decide)⟩

/-- **C10** — the normalizer is total and shape-preserving: on every
well-formed frame (including frames with date columns containing missing
values and frames whose names collide after sanitation) it returns a
well-formed frame with the same row and column counts and with the
sanitized names. -/
theorem C10_normalizer_total :
    ∀ df : DataFrame, df.WellFormed →
      (clean_dataframe df).1.WellFormed ∧
      (clean_dataframe df).1.nrows = df.nrows ∧
      (clean_dataframe df).1.ncols = df.ncols ∧
      (clean_dataframe df).1.names = df.names.map cleanName := by
  intro df hwf
  exact ⟨clean_wellFormed df hwf, clean_nrows df, clean_ncols df, clean_names df⟩

/-- **C10** witness — totality at a frame that has a date column with a
missing value *and* two differently-named columns colliding after
sanitation. -/
theorem C10_witness :
    DataFrame.WellFormed
      [⟨"A B", Dtype.object, [Cell.na]⟩,
       ⟨"A_B", Dtype.object, [Cell.str "x"]⟩,
       ⟨"Fecha", Dtype.datetime, [Cell.na]⟩] ∧
    ((clean_dataframe
        [⟨"A B", Dtype.object, [Cell.na]⟩,
         ⟨"A_B", Dtype.object, [Cell.str "x"]⟩,
         ⟨"Fecha", Dtype.datetime, [Cell.na]⟩]).1.WellFormed ∧
      (clean_dataframe
        [⟨"A B", Dtype.object, [Cell.na]⟩,
         ⟨"A_B", Dtype.object, [Cell.str "x"]⟩,
         ⟨"Fecha", Dtype.datetime, [Cell.na]⟩]).1.nrows =
        DataFrame.nrows
          [⟨"A B", Dtype.object, [Cell.na]⟩,
           ⟨"A_B", Dtype.object, [Cell.str "x"]⟩,
           ⟨"Fecha", Dtype.datetime, [Cell.na]⟩] ∧
      (clean_dataframe
        [⟨"A B", Dtype.object, [Cell.na]⟩,
         ⟨"A_B", Dtype.object, [Cell.str "x"]⟩,
         ⟨"Fecha", Dtype.datetime, [Cell.na]⟩]).1.ncols =
        DataFrame.ncols
          [⟨"A B", Dtype.object, [Cell.na]⟩,
           ⟨"A_B", Dtype.object, [Cell.str "x"]⟩,
           ⟨"Fecha", Dtype.datetime, [Cell.na]⟩] ∧
      (clean_dataframe
        [⟨"A B", Dtype.object, [Cell.na]⟩,
         ⟨"A_B", Dtype.object, [Cell.str "x"]⟩,
         ⟨"Fecha", Dtype.datetime, [Cell.na]⟩]).1.names =
        (DataFrame.names
          [⟨"A B", Dtype.object, [Cell.na]⟩,
           ⟨"A_B", Dtype.object, [Cell.str "x"]⟩,
           ⟨"Fecha", Dtype.datetime, [Cell.na]⟩]).map cleanName) :=
  ⟨by decide, C10_normalizer_total _ (by decide)⟩

/-! ## Serializability of the normalized records -/

/-- The Python `str()` of a cell is always a text cell. -/
theorem cellAstypeStr_is_str (c : Cell) : ∃ s, cellAstypeStr c = Cell.str s := by
  cases c <;> exact ⟨_, rfl⟩

/-- The empty-fill never leaves a missing marker. -/
theorem fillCell_not_na (c : Cell) : (fillCell c).isNA = false := by
  cases c <;> rfl

/-- A serialized cell value is a JSON string, number or boolean — never
`null`. -/
theorem toJson?_shape {c : Cell} {j : JValue} (h : Cell.toJson? c = some j) :
    (∃ s, j = JValue.jstr s) ∨ (∃ n, j = JValue.jnum n) ∨ (∃ b, j = JValue.jbool b) := by
  cases c <;> simp [Cell.toJson?] at h <;> subst h
  · exact Or.inl ⟨_, rfl⟩
  · exact Or.inr (Or.inl ⟨_, rfl⟩)
  · exact Or.inr (Or.inr ⟨_, rfl⟩)

/-- The cells of a filled column are the filled cells. -/
theorem fillnaCol_cells (col : Column) :
    (fillnaCol col).cells = col.cells.map fillCell := rfl

/-- The empty-fill of a cell that is not a raw date value is
serializable. -/
theorem fillCell_serializable {x : Cell} (hx : x.isDate = false) :
    (Cell.toJson? (fillCell x)).isSome = true := by
  cases x <;> simp_all [fillCell, Cell.toJson?, Cell.isDate, Cell.isNA]

/-- Cells of the normalized frame are never missing markers. -/
theorem clean_no_na (df : DataFrame) :
    ∀ col2 ∈ (clean_dataframe df).1, ∀ c ∈ col2.cells, c.isNA = false := by
  intro col2 hcol2 c hc
  rw [clean_dataframe_fst, DataFrame.convertDatetimeCols] at hcol2
  obtain ⟨colm, hcolm, _, _, hcells⟩ := foldl_stringify_mem _ _ col2 hcol2
  obtain ⟨col0, _, rfl⟩ := List.mem_map.1 hcolm
  rcases hcells with h | h
  · rw [h, prepCol_cells] at hc
    obtain ⟨x, _, rfl⟩ := List.mem_map.1 hc
    exact fillCell_not_na x
  · rw [h] at hc
    obtain ⟨x, _, rfl⟩ := List.mem_map.1 hc
    obtain ⟨s, hs⟩ := cellAstypeStr_is_str x
    simp [hs, Cell.isNA]

/-- Under the Loader's typing guarantees (dates only in datetime columns,
no missing values in datetime columns), every cell of the normalized
frame is serializable.  A non-datetime column may or may not be caught by
a colliding label assignment; either way its cells end as filled
originals or as their `str()` images, both serializable. -/
theorem clean_serializable (df : DataFrame)
    (hdt : ∀ col ∈ df, ∀ c ∈ col.cells, c.isDate = true → col.dtype.isDatetime = true)
    (hnd : ∀ col ∈ df, col.dtype.isDatetime = true → ∀ c ∈ col.cells, c.isNA = false) :
    ∀ col2 ∈ (clean_dataframe df).1, ∀ c ∈ col2.cells, (Cell.toJson? c).isSome = true := by
  intro col2 hcol2 c hc
  rw [clean_dataframe_fst, DataFrame.convertDatetimeCols] at hcol2
  obtain ⟨i, hi⟩ := List.getElem?_of_mem hcol2
  have hlen : i < df.length := by
    have h1 := (List.getElem?_eq_some_iff.1 hi).choose
    rw [foldl_stringify_length, List.length_map] at h1
    exact h1
  obtain ⟨col0, hcol0⟩ : ∃ col0, df[i]? = some col0 :=
    ⟨df[i], List.getElem?_eq_getElem hlen⟩
  have hmem0 : col0 ∈ df := List.getElem?_mem hcol0
  have hprep : (df.map prepCol)[i]? = some (prepCol col0) := by
    rw [List.getElem?_map, hcol0]; rfl
  obtain ⟨col2b, hget, _, hbranch⟩ :=
    foldl_stringify_get _ (df.map prepCol) i (prepCol col0) hprep
  have hcc : col2b = col2 := by rw [hget] at hi; exact Option.some.inj hi
  subst hcc
  rcases hbranch with ⟨_, _, hcells⟩ | ⟨hnm, hcp⟩
  · rw [hcells] at hc
    obtain ⟨x, _, rfl⟩ := List.mem_map.1 hc
    obtain ⟨s, hs⟩ := cellAstypeStr_is_str x
    simp [hs, Cell.toJson?]
  · cases hdt0 : col0.dtype.isDatetime
    · -- not a date column: its cells are the filled originals
      rw [hcp, prepCol_cells] at hc
      obtain ⟨x, hx, rfl⟩ := List.mem_map.1 hc
      have hxdate : x.isDate = false := by
        cases hd : x.isDate
        · rfl
        · rw [hdt col0 hmem0 x hx hd] at hdt0; simp at hdt0
      exact fillCell_serializable hxdate
    · -- a date column without missing values is always selected
      have hna0 : ∀ x ∈ col0.cells, x.isNA = false := hnd col0 hmem0 hdt0
      have hany : col0.cells.any Cell.isNA = false :=
        List.any_eq_false.mpr fun x hx => by simp [hna0 x hx]
      have hpdt : (prepCol col0).dtype.isDatetime = true := by
        rw [prepCol_dtype]
        simp [fillnaCol, hany, hdt0]
      exact absurd (mem_selected_names (df.map prepCol) (prepCol col0)
        (List.getElem?_mem hprep) hpdt) hnm

/-- A member of an upserted dict is an old pair or the inserted pair. -/
theorem mem_upsert {r : List (String × Cell)} {k : String} {v : Cell} {p : String × Cell}
    (hp : p ∈ upsert r k v) : p ∈ r ∨ p = (k, v) := by
  induction r with
  | nil => simp [upsert] at hp; exact Or.inr hp
  | cons q rest ih =>
    obtain ⟨k1, v1⟩ := q
    by_cases hk : k1 = k
    · rw [upsert, if_pos hk] at hp
      rcases List.mem_cons.1 hp with h1 | h1
      · subst hk; exact Or.inr h1
      · exact Or.inl (List.mem_cons_of_mem _ h1)
    · rw [upsert, if_neg hk] at hp
      rcases List.mem_cons.1 hp with h1 | h1
      · exact Or.inl (h1 ▸ List.mem_cons_self _ _)
      · rcases ih h1 with h2 | h2
        · exact Or.inl (List.mem_cons_of_mem _ h2)
        · exact Or.inr h2

/-- The keys of an upserted dict are the old keys together with the
inserted key. -/
theorem keys_upsert (r : List (String × Cell)) (k : String) (v : Cell) (k0 : String) :
    k0 ∈ (upsert r k v).map Prod.fst ↔ k0 ∈ r.map Prod.fst ∨ k0 = k := by
  induction r with
  | nil => simp [upsert]
  | cons q rest ih =>
    obtain ⟨k1, v1⟩ := q
    by_cases hk : k1 = k
    · subst hk
      rw [upsert, if_pos rfl]
      simp only [List.map_cons, List.mem_cons]
      tauto
    · rw [upsert, if_neg hk]
      simp only [List.map_cons, List.mem_cons]
      rw [ih]
      tauto

/-- Every pair of a produced record takes its value from a cell of a
column of the frame (and its key from that column's name). -/
theorem rowRecord_mem (df : DataFrame) (i : Nat) :
    ∀ p ∈ rowRecord df i, ∃ col, col ∈ df ∧ p.1 = col.name ∧ p.2 ∈ col.cells := by
  suffices h : ∀ (l : List Column) (r0 : List (String × Cell)) p,
      p ∈ l.foldl (fun r col => match col.cells.get? i with
        | some v => upsert r col.name v
        | none => r) r0 →
      p ∈ r0 ∨ ∃ col, col ∈ l ∧ p.1 = col.name ∧ p.2 ∈ col.cells by
    intro p hp
    rcases h df [] p hp with h0 | ⟨col, hcol, hh⟩
    · simp at h0
    · exact ⟨col, hcol, hh⟩
  intro l
  induction l with
  | nil => intro r0 p hp; exact Or.inl hp
  | cons col rest ih =>
    intro r0 p hp
    simp only [List.foldl_cons] at hp
    rcases ih _ p hp with h0 | ⟨c2, hc2, hh⟩
    · cases hv : col.cells.get? i with
      | none => rw [hv] at h0; exact Or.inl h0
      | some v =>
          rw [hv] at h0
          rcases mem_upsert h0 with h1 | h1
          · exact Or.inl h1
          · subst h1
            exact Or.inr ⟨col, List.mem_cons_self col rest, rfl, List.get?_mem hv⟩
    · exact Or.inr ⟨c2, List.mem_cons_of_mem col hc2, hh⟩

/-- Every pair of a `to_dict('records')` record comes from the frame. -/
theorem toRecords_mem (df : DataFrame) :
    ∀ rec ∈ df.toRecords, ∀ p ∈ rec,
      ∃ col, col ∈ df ∧ p.1 = col.name ∧ p.2 ∈ col.cells := by
  intro rec hrec p hp
  obtain ⟨i, _, rfl⟩ := List.mem_map.1 hrec
  exact rowRecord_mem df i p hp

/-- Serialization of a record succeeds when every value is serializable,
and preserves the keys in order. -/
theorem recordToJson?_some :
    ∀ (r : List (String × Cell)), (∀ p ∈ r, (Cell.toJson? p.2).isSome = true) →
      ∃ rj, recordToJson? r = some rj ∧ rj.map Prod.fst = r.map Prod.fst := by
  intro r
  induction r with
  | nil => intro _; exact ⟨[], rfl, rfl⟩
  | cons p r2 ih =>
    intro h
    obtain ⟨j, hj⟩ := Option.isSome_iff_exists.1 (h p (List.mem_cons_self p r2))
    obtain ⟨rj2, hrj2, hkeys⟩ := ih fun q hq => h q (List.mem_cons_of_mem p hq)
    refine ⟨(p.1, j) :: rj2, ?_, by simp [hkeys]⟩
    simp only [recordToJson?] at hrj2 ⊢
    rw [List.mapM_cons, hj, hrj2]
    rfl

/-- Inversion: every pair of a serialized record comes from a pair of the
record, with the same key. -/
theorem recordToJson?_mem :
    ∀ (r : List (String × Cell)) (rj : List (String × JValue)),
      recordToJson? r = some rj →
      ∀ q ∈ rj, ∃ p, p ∈ r ∧ p.1 = q.1 ∧ Cell.toJson? p.2 = some q.2 := by
  intro r
  induction r with
  | nil =>
    intro rj h q hq
    simp only [recordToJson?, List.mapM_nil, Option.pure_def, Option.some.injEq] at h
    subst h
    simp at hq
  | cons p r2 ih =>
    intro rj h q hq
    simp only [recordToJson?, List.mapM_cons] at h
    cases hx : Cell.toJson? p.2 with
    | none => rw [hx] at h; simp at h
    | some j =>
      rw [hx] at h
      cases hm : r2.mapM (fun kv => (Cell.toJson? kv.2).map fun j => (kv.1, j)) with
      | none => rw [hm] at h; simp at h
      | some rj2 =>
        rw [hm] at h
        simp only [Option.map_some', Option.bind_eq_bind, Option.some_bind,
          Option.pure_def, Option.some.injEq] at h
        subst h
        rcases List.mem_cons.1 hq with h1 | h1
        · exact ⟨p, List.mem_cons_self p r2, by rw [h1], by rw [hx, h1]⟩
        · obtain ⟨p2, hp2, hk, hv⟩ := ih rj2 hm q h1
          exact ⟨p2, List.mem_cons_of_mem p hp2, hk, hv⟩

/-- Keys are preserved by record serialization. -/
theorem recordToJson?_keys :
    ∀ (r : List (String × Cell)) (rj : List (String × JValue)),
      recordToJson? r = some rj → rj.map Prod.fst = r.map Prod.fst := by
  intro r
  induction r with
  | nil =>
    intro rj h
    simp only [recordToJson?, List.mapM_nil, Option.pure_def, Option.some.injEq] at h
    subst h; rfl
  | cons p r2 ih =>
    intro rj h
    simp only [recordToJson?, List.mapM_cons] at h
    cases hx : Cell.toJson? p.2 with
    | none => rw [hx] at h; simp at h
    | some j =>
      rw [hx] at h
      cases hm : r2.mapM (fun kv => (Cell.toJson? kv.2).map fun j => (kv.1, j)) with
      | none => rw [hm] at h; simp at h
      | some rj2 =>
        rw [hm] at h
        simp only [Option.map_some', Option.bind_eq_bind, Option.some_bind,
          Option.pure_def, Option.some.injEq] at h
        subst h
        simp [ih rj2 hm]

/-- Document serialization succeeds when every record is serializable,
preserving the count, and every emitted object is a serialized record. -/
theorem mapM_recordToJson?_some :
    ∀ (l : List (List (String × Cell))),
      (∀ rec ∈ l, ∀ p ∈ rec, (Cell.toJson? p.2).isSome = true) →
      ∃ doc, l.mapM recordToJson? = some doc ∧ doc.length = l.length ∧
        ∀ rj ∈ doc, ∃ rec, rec ∈ l ∧ recordToJson? rec = some rj := by
  intro l
  induction l with
  | nil => intro _; exact ⟨[], rfl, rfl, by simp⟩
  | cons rec l2 ih =>
    intro h
    obtain ⟨rj, hrj, _⟩ := recordToJson?_some rec (h rec (List.mem_cons_self rec l2))
    obtain ⟨doc2, hdoc2, hlen, hmem⟩ := ih fun r hr => h r (List.mem_cons_of_mem rec hr)
    refine ⟨rj :: doc2, ?_, by simp [hlen], ?_⟩
    · rw [List.mapM_cons, hrj, hdoc2]; rfl
    · intro x hx
      rcases List.mem_cons.1 hx with h1 | h1
      · exact ⟨rec, List.mem_cons_self rec l2, h1 ▸ hrj⟩
      · obtain ⟨r2, hr2, hr3⟩ := hmem x h1
        exact ⟨r2, List.mem_cons_of_mem rec hr2, hr3⟩

/-- In a frame whose columns all reach row `i`, the keys of record `i`
are exactly the column names. -/
theorem keys_rowRecord (df : DataFrame) (i : Nat)
    (hlt : ∀ col ∈ df, i < col.cells.length) :
    ∀ k, k ∈ (rowRecord df i).map Prod.fst ↔ k ∈ df.names := by
  suffices h : ∀ (l : List Column), (∀ col ∈ l, i < col.cells.length) →
      ∀ (r0 : List (String × Cell)) k,
      k ∈ (l.foldl (fun r col => match col.cells.get? i with
        | some v => upsert r col.name v
        | none => r) r0).map Prod.fst ↔
        k ∈ r0.map Prod.fst ∨ k ∈ DataFrame.names l by
    intro k
    rw [rowRecord, h df hlt [] k]
    simp
  intro l
  induction l with
  | nil =>
    intro _ r0 k
    simp [DataFrame.names]
  | cons col rest ih =>
    intro hl r0 k
    have hv : col.cells.get? i = some (col.cells.get ⟨i, hl col (List.mem_cons_self col rest)⟩) :=
      List.get?_eq_get (hl col (List.mem_cons_self col rest))
    simp only [List.foldl_cons, hv]
    rw [ih (fun c hc => hl c (List.mem_cons_of_mem col hc)) _ k]
    rw [keys_upsert]
    show (k ∈ List.map Prod.fst r0 ∨ k = col.name) ∨ k ∈ DataFrame.names rest ↔
      k ∈ List.map Prod.fst r0 ∨ k ∈ DataFrame.names (col :: rest)
    simp only [DataFrame.names, List.map_cons, List.mem_cons]
    tauto

/-- **C1** (amended) — empty-fill totality: after the normalizer no cell
is a missing marker (missing cells of *every* column, dates included,
become `""`), and — provided date values only occur in datetime-dtyped
columns and no datetime column contains a missing value — every value of
every serialized record is a JSON string, number or boolean.  The
proviso is forced: a missing value inside a datetime column makes the
empty-fill coerce that column to `object` dtype, its surviving date
values then skip the string conversion and `json.dumps` raises
`TypeError` on them (see `C1_counterexample`). -/
theorem C1_empty_fill_serializable :
    ∀ df : DataFrame,
      (∀ col ∈ (clean_dataframe df).1, ∀ c ∈ col.cells, c.isNA = false) ∧
      (df.DatesTyped → df.NoMissingDates →
        ∃ doc, (clean_dataframe df).1.toJsonDoc? = some doc ∧
          ∀ rj ∈ doc, ∀ q ∈ rj,
            (∃ s, q.2 = JValue.jstr s) ∨ (∃ n, q.2 = JValue.jnum n) ∨
              (∃ b, q.2 = JValue.jbool b)) := by
  intro df
  constructor
  · exact clean_no_na df
  · intro hdt hnd
    have hser : ∀ rec ∈ (clean_dataframe df).1.toRecords, ∀ p ∈ rec,
        (Cell.toJson? p.2).isSome = true := by
      intro rec hrec p hp
      obtain ⟨col, hcol, _, hv⟩ := toRecords_mem _ rec hrec p hp
      exact clean_serializable df (fun c0 hc0 c hc hd => hdt c0 hc0 c hc hd)
        (fun c0 hc0 hcd c hc => by simpa using hnd c0 hc0 hcd c hc)
        col hcol p.2 hv
    obtain ⟨doc, hdoc, _, hmem⟩ := mapM_recordToJson?_some _ hser
    refine ⟨doc, hdoc, ?_⟩
    intro rj hrj q hq
    obtain ⟨rec, _, hrec⟩ := hmem rj hrj
    obtain ⟨p, _, _, hv⟩ := recordToJson?_mem rec rj hrec q hq
    exact toJson?_shape hv

/-- **C1** counterexample — the claim as stated fails on a frame with a
datetime column containing a missing value: after the normalizer the
missing cell has indeed become `""`, but the surviving date cell is not
a string/number/boolean, so serialization fails (`json.dumps` raises
`TypeError`). -/
theorem C1_counterexample :
    DataFrame.toRecords (clean_dataframe
        [⟨"Fecha", Dtype.datetime, [Cell.dt ⟨2025, 6, 18, 0, 0, 0, none⟩, Cell.na]⟩]).1 =
      [[("Fecha", Cell.dt ⟨2025, 6, 18, 0, 0, 0, none⟩)], [("Fecha", Cell.str "")]] ∧
    Cell.toJson? (Cell.dt ⟨2025, 6, 18, 0, 0, 0, none⟩) = none ∧
    DataFrame.toJsonDoc? (clean_dataframe
        [⟨"Fecha", Dtype.datetime, [Cell.dt ⟨2025, 6, 18, 0, 0, 0, none⟩, Cell.na]⟩]).1 = none ∧
    convert_to_json (clean_dataframe
        [⟨"Fecha", Dtype.datetime, [Cell.dt ⟨2025, 6, 18, 0, 0, 0, none⟩, Cell.na]⟩]).1
        none true = ConvResult.typeError := by
  exact ⟨by decide, rfl, by decide, by decide⟩

/-- **C1** witness — the amended statement at a concrete frame with a
date column without missing values and a text column with a missing
value. -/
theorem C1_witness :
    (∀ col ∈ (clean_dataframe
        [⟨"Fecha", Dtype.datetime, [Cell.dt ⟨2025, 6, 18, 0, 0, 0, none⟩]⟩,
         ⟨"Descripcion", Dtype.object, [Cell.na]⟩]).1, ∀ c ∈ col.cells, c.isNA = false) ∧
    (∃ doc, DataFrame.toJsonDoc? (clean_dataframe
        [⟨"Fecha", Dtype.datetime, [Cell.dt ⟨2025, 6, 18, 0, 0, 0, none⟩]⟩,
         ⟨"Descripcion", Dtype.object, [Cell.na]⟩]).1 = some doc ∧
      ∀ rj ∈ doc, ∀ q ∈ rj,
        (∃ s, q.2 = JValue.jstr s) ∨ (∃ n, q.2 = JValue.jnum n) ∨
          (∃ b, q.2 = JValue.jbool b)) :=
  ⟨(C1_empty_fill_serializable
      [⟨"Fecha", Dtype.datetime, [Cell.dt ⟨2025, 6, 18, 0, 0, 0, none⟩]⟩,
       ⟨"Descripcion", Dtype.object, [Cell.na]⟩]).1,
   (C1_empty_fill_serializable
      [⟨"Fecha", Dtype.datetime, [Cell.dt ⟨2025, 6, 18, 0, 0, 0, none⟩]⟩,
       ⟨"Descripcion", Dtype.object, [Cell.na]⟩]).2 (by decide) (by decide)⟩

/-! ## Round-trip: the parser recovers what the renderer emits -/

/-- A list of insignificant whitespace. -/
def WsList (w : List Char) : Prop := ∀ c ∈ w, isJsonWs c = true

instance : DecidablePred WsList := fun w =>
  inferInstanceAs (Decidable (∀ c ∈ w, isJsonWs c = true))

/-- All the padding of a layout is whitespace. -/
def Layout.Ws (L : Layout) : Prop :=
  WsList L.arrOpen ∧ WsList L.arrSep ∧ WsList L.arrClose ∧
    WsList L.objOpen ∧ WsList L.objSep ∧ WsList L.objClose

theorem compactLayout_ws : compactLayout.Ws := by
  refine ⟨?_, ?_, ?_, ?_, ?_, ?_⟩ <;> decide

theorem prettyLayout_ws : prettyLayout.Ws := by
  refine ⟨?_, ?_, ?_, ?_, ?_, ?_⟩ <;> decide

theorem skipWs_cons_not_ws {c : Char} (h : isJsonWs c = false) (l : List Char) :
    skipWs (c :: l) = c :: l := by
  simp [skipWs, List.dropWhile_cons, h]

theorem skipWs_append_ws {w : List Char} (h : WsList w) (l : List Char) :
    skipWs (w ++ l) = skipWs l := by
  induction w with
  | nil => rfl
  | cons c t ih =>
    rw [List.cons_append, skipWs, List.dropWhile_cons,
      if_pos (h c (List.mem_cons_self c t))]
    exact ih fun x hx => h x (List.mem_cons_of_mem c hx)

theorem ws_not_digit {c : Char} (h : isJsonWs c = true) : c.isDigit = false := by
  simp only [isJsonWs, Bool.or_eq_true, decide_eq_true_eq] at h
  rcases h with ((rfl | rfl) | rfl) | rfl <;> decide

/-- The first character of whitespace followed by a non-digit is not a
digit. -/
theorem head_not_digit_ws {w : List Char} (hw : WsList w) {c : Char}
    (hc : c.isDigit = false) (l : List Char) :
    ∀ x, (w ++ c :: l).head? = some x → x.isDigit = false := by
  intro x hx
  cases w with
  | nil =>
    simp only [List.nil_append, List.head?_cons, Option.some.injEq] at hx
    subst hx; exact hc
  | cons a t =>
    have hax : a = x := by simpa using hx
    cases hax
    exact ws_not_digit (hw x (List.mem_cons_self x t))

/-! ### Decimal numerals -/

theorem digitChar_props {d : Nat} (h : d < 10) :
    (Char.ofNat (48 + d)).isDigit = true ∧ (Char.ofNat (48 + d)).toNat = 48 + d ∧
      isJsonWs (Char.ofNat (48 + d)) = false ∧ Char.ofNat (48 + d) ≠ '"' ∧
      Char.ofNat (48 + d) ≠ '-' ∧ Char.ofNat (48 + d) ≠ '\n' := by
  interval_cases d <;> exact ⟨by decide, by decide, by decide, by decide, by decide, by decide⟩

theorem hexDigitChar_val {d : Nat} (h : d < 16) :
    hexVal? (hexDigitChar d) = some d := by
  interval_cases d <;> decide

theorem natDecimalAux_eq_digits :
    ∀ (fuel n : Nat), n ≤ fuel →
      natDecimalAux fuel n = ((Nat.digits 10 n).map fun d => Char.ofNat (48 + d)).reverse := by
  intro fuel
  induction fuel with
  | zero =>
    intro n hn
    have : n = 0 := by omega
    subst this
    simp [natDecimalAux]
  | succ f ih =>
    intro n hn
    by_cases h : n = 0
    · subst h; simp [natDecimalAux]
    · rw [natDecimalAux, if_neg h,
        ih (n / 10) (by
          have hlt : n / 10 < n := Nat.div_lt_self (Nat.pos_of_ne_zero h) (by omega)
          omega),
        Nat.digits_def' (by omega : 1 < 10) (Nat.pos_of_ne_zero h)]
      simp

theorem natDecimal_eq_digits (n : Nat) :
    natDecimal n =
      (if n = 0 then ['0']
       else ((Nat.digits 10 n).map fun d => Char.ofNat (48 + d)).reverse) := by
  by_cases h : n = 0
  · subst h; rfl
  · rw [natDecimal, if_neg h, if_neg h, natDecimalAux_eq_digits n n le_rfl]

theorem natDecimal_ne_nil (n : Nat) : natDecimal n ≠ [] := by
  by_cases h : n = 0
  · subst h; decide
  · rw [natDecimal_eq_digits, if_neg h]
    simp [Nat.digits_ne_nil_iff_ne_zero.mpr h]

theorem natDecimal_mem {n : Nat} :
    ∀ c ∈ natDecimal n, ∃ d, d < 10 ∧ c = Char.ofNat (48 + d) := by
  intro c hc
  by_cases h : n = 0
  · subst h
    have hc2 : c ∈ (['0'] : List Char) := hc
    rw [List.mem_singleton] at hc2
    exact ⟨0, by omega, by rw [hc2]⟩
  · rw [natDecimal_eq_digits, if_neg h, List.mem_reverse] at hc
    obtain ⟨d, hd, rfl⟩ := List.mem_map.1 hc
    exact ⟨d, Nat.digits_lt_base (by omega) hd, rfl⟩

/-- Fold a big-endian digit list as a decimal numeral. -/
theorem foldl_horner (ds : List Nat) (a : Nat) :
    ds.reverse.foldl (fun x d => 10 * x + d) a =
      a * 10 ^ ds.length + Nat.ofDigits 10 ds := by
  induction ds generalizing a with
  | nil => simp [Nat.ofDigits]
  | cons d t ih =>
    rw [List.reverse_cons, List.foldl_append, ih]
    simp only [List.foldl_cons, List.foldl_nil, List.length_cons, Nat.ofDigits_cons]
    ring

theorem takeWhile_dropWhile_append {p : Char → Bool} {a rest : List Char}
    (ha : ∀ c ∈ a, p c = true) (hr : ∀ c, rest.head? = some c → p c = false) :
    (a ++ rest).takeWhile p = a ∧ (a ++ rest).dropWhile p = rest := by
  induction a with
  | nil =>
    simp only [List.nil_append]
    cases rest with
    | nil => exact ⟨rfl, rfl⟩
    | cons c t =>
      have hc : p c = false := hr c rfl
      constructor
      · rw [List.takeWhile_cons, if_neg (by simp [hc])]
      · rw [List.dropWhile_cons, if_neg (by simp [hc])]
  | cons c t ih =>
    have hpc := ha c (List.mem_cons_self c t)
    obtain ⟨h1, h2⟩ := ih fun x hx => ha x (List.mem_cons_of_mem c hx)
    constructor
    · rw [List.cons_append, List.takeWhile_cons, if_pos hpc, h1]
    · rw [List.cons_append, List.dropWhile_cons, if_pos hpc, h2]

/-- Decoding the decimal numeral of `n` gives back `n`. -/
theorem foldl_decode_natDecimal (n : Nat) :
    (natDecimal n).foldl (fun a c => 10 * a + (c.toNat - 48)) 0 = n := by
  by_cases h : n = 0
  · subst h; decide
  · rw [natDecimal_eq_digits, if_neg h, ← List.map_reverse, List.foldl_map]
    have hcong : ∀ (l : List Nat), (∀ d ∈ l, d < 10) → ∀ a : Nat,
        l.foldl (fun x d => 10 * x + ((Char.ofNat (48 + d)).toNat - 48)) a =
          l.foldl (fun x d => 10 * x + d) a := by
      intro l
      induction l with
      | nil => intro _ _; rfl
      | cons d t ih =>
        intro hl a
        have h2 : ((Char.ofNat (48 + d)).toNat - 48) = d := by
          rw [(digitChar_props (hl d (List.mem_cons_self d t))).2.1]; omega
        rw [List.foldl_cons, List.foldl_cons, h2]
        exact ih (fun x hx => hl x (List.mem_cons_of_mem d hx)) _
    rw [hcong _ (fun d hd => Nat.digits_lt_base (by omega) (List.mem_reverse.1 hd)) 0]
    rw [foldl_horner]
    simp [Nat.ofDigits_digits]

theorem parseNat_natDecimal (n : Nat) (rest : List Char)
    (hrest : ∀ c, rest.head? = some c → c.isDigit = false) :
    parseNat (natDecimal n ++ rest) = some (n, rest) := by
  have hdig : ∀ c ∈ natDecimal n, c.isDigit = true := by
    intro c hc
    obtain ⟨d, hd, rfl⟩ := natDecimal_mem c hc
    exact (digitChar_props hd).1
  obtain ⟨htake, hdrop⟩ := takeWhile_dropWhile_append hdig hrest
  have hne : ¬ ((natDecimal n).isEmpty = true) := by
    cases hl : natDecimal n with
    | nil => exact absurd hl (natDecimal_ne_nil n)
    | cons c t => simp
  rw [parseNat]
  simp only [htake, hdrop]
  rw [if_neg hne, foldl_decode_natDecimal]

/-- The first character of a rendered scalar is never whitespace. -/
theorem renderJValue_head_not_ws (v : JValue) :
    ∃ c t, renderJValue v = c :: t ∧ isJsonWs c = false := by
  cases v with
  | jstr s => exact ⟨'"', _, rfl, by decide⟩
  | jnum n =>
    cases n with
    | ofNat m =>
      cases hl : natDecimal m with
      | nil => exact absurd hl (natDecimal_ne_nil m)
      | cons c t =>
        have hc : c ∈ natDecimal m := by rw [hl]; exact List.mem_cons_self c t
        obtain ⟨d, hd, rfl⟩ := natDecimal_mem c hc
        exact ⟨_, t, by simpa [renderJValue, intDecimal] using hl,
          (digitChar_props hd).2.2.1⟩
    | negSucc m => exact ⟨'-', _, rfl, by decide⟩
  | jbool b => cases b with
    | true => exact ⟨'t', _, rfl, by decide⟩
    | false => exact ⟨'f', _, rfl, by decide⟩
  | jnull => exact ⟨'n', _, rfl, by decide⟩

/-- Parsing a string body undoes the `json.dumps` escaping. -/
theorem psb_escape :
    ∀ (l rest : List Char),
      parseStringBody (escapeChars l ++ '"' :: rest) = some (l, rest) := by
  intro l
  induction l with
  | nil =>
    intro rest
    rw [show escapeChars [] = [] from rfl, List.nil_append, parseStringBody.eq_def]
    simp
  | cons c t ih =>
    intro rest
    rw [show escapeChars (c :: t) = escChar c ++ escapeChars t from by
      simp [escapeChars], List.append_assoc]
    by_cases h1 : c = '"'
    · subst h1
      rw [show escChar '"' = ['\\', '"'] from by decide]
      simp only [List.cons_append, List.nil_append]
      rw [parseStringBody.eq_def]
      simp only [Char.reduceEq, reduceIte, reduceCtorEq]
      rw [ih rest]
      rfl
    · by_cases h2 : c = '\\'
      · subst h2
        rw [show escChar '\\' = ['\\', '\\'] from by decide]
        simp only [List.cons_append, List.nil_append]
        rw [parseStringBody.eq_def]
        simp only [Char.reduceEq, reduceIte, reduceCtorEq]
        rw [ih rest]
        rfl
      · by_cases h3 : c = '\n'
        · subst h3
          rw [show escChar '\n' = ['\\', 'n'] from by decide]
          simp only [List.cons_append, List.nil_append]
          rw [parseStringBody.eq_def]
          simp only [Char.reduceEq, reduceIte, reduceCtorEq]
          rw [ih rest]
          rfl
        · by_cases h4 : c = '\t'
          · subst h4
            rw [show escChar '\t' = ['\\', 't'] from by decide]
            simp only [List.cons_append, List.nil_append]
            rw [parseStringBody.eq_def]
            simp only [Char.reduceEq, reduceIte, reduceCtorEq]
            rw [ih rest]
            rfl
          · by_cases h5 : c = '\r'
            · subst h5
              rw [show escChar '\r' = ['\\', 'r'] from by decide]
              simp only [List.cons_append, List.nil_append]
              rw [parseStringBody.eq_def]
              simp only [Char.reduceEq, reduceIte, reduceCtorEq]
              rw [ih rest]
              rfl
            · by_cases h6 : c.toNat = 8
              · have hc8 : c = Char.ofNat 8 := by rw [← h6, Char.ofNat_toNat]
                rw [show escChar c = ['\\', 'b'] from by
                  rw [escChar, if_neg h1, if_neg h2, if_neg h3, if_neg h4, if_neg h5,
                    if_pos h6]]
                simp only [List.cons_append, List.nil_append]
                rw [parseStringBody.eq_def]
                simp only [Char.reduceEq, reduceIte, reduceCtorEq]
                rw [ih rest, hc8]
                rfl
              · by_cases h7 : c.toNat = 12
                · have hc12 : c = Char.ofNat 12 := by rw [← h7, Char.ofNat_toNat]
                  rw [show escChar c = ['\\', 'f'] from by
                    rw [escChar, if_neg h1, if_neg h2, if_neg h3, if_neg h4, if_neg h5,
                      if_neg h6, if_pos h7]]
                  simp only [List.cons_append, List.nil_append]
                  rw [parseStringBody.eq_def]
                  simp only [Char.reduceEq, reduceIte, reduceCtorEq]
                  rw [ih rest, hc12]
                  rfl
                · by_cases h8 : c.toNat < 32
                  · rw [show escChar c =
                        ['\\', 'u', '0', '0', hexDigitChar (c.toNat / 16),
                          hexDigitChar (c.toNat % 16)] from by
                      rw [escChar, if_neg h1, if_neg h2, if_neg h3, if_neg h4, if_neg h5,
                        if_neg h6, if_neg h7, if_pos h8]]
                    simp only [List.cons_append, List.nil_append]
                    rw [parseStringBody.eq_def]
                    simp only [Char.reduceEq, reduceIte, reduceCtorEq]
                    rw [hexDigitChar_val (show c.toNat / 16 < 16 by omega),
                      hexDigitChar_val (show c.toNat % 16 < 16 by omega),
                      show hexVal? '0' = some 0 from by decide]
                    rw [ih rest]
                    simp only [Option.map_some', Option.some.injEq, Prod.mk.injEq]
                    refine ⟨?_, trivial⟩
                    rw [show (4096 * 0 + 256 * 0 + 16 * (c.toNat / 16) + c.toNat % 16) =
                        c.toNat by omega, Char.ofNat_toNat]
                  · rw [show escChar c = [c] from by
                      rw [escChar, if_neg h1, if_neg h2, if_neg h3, if_neg h4, if_neg h5,
                        if_neg h6, if_neg h7, if_neg h8]]
                    simp only [List.cons_append, List.nil_append]
                    rw [parseStringBody.eq_def]
                    simp only [h1, h2, if_false]
                    rw [ih rest]
                    rfl

theorem string_mk_data (s : String) : String.mk s.data = s := rfl

/-- Parsing a rendered scalar (followed by anything that does not start
with a digit) gives back the scalar. -/
theorem parseValue_render (v : JValue) (rest : List Char)
    (hrest : ∀ c, rest.head? = some c → c.isDigit = false) :
    parseValue (renderJValue v ++ rest) = some (v, rest) := by
  cases v with
  | jstr s =>
    rw [show renderJValue (JValue.jstr s) ++ rest =
        '"' :: (escapeChars s.data ++ '"' :: rest) from by
      simp [renderJValue, renderString]]
    rw [parseValue.eq_def]
    simp only [Char.reduceEq, reduceIte]
    rw [psb_escape s.data rest]
    rfl
  | jnum n =>
    cases n with
    | ofNat m =>
      cases hl : natDecimal m with
      | nil => exact absurd hl (natDecimal_ne_nil m)
      | cons c t =>
        have hc : c ∈ natDecimal m := by rw [hl]; exact List.mem_cons_self c t
        obtain ⟨d, hd, rfl⟩ := natDecimal_mem c hc
        have hprops := digitChar_props hd
        rw [show renderJValue (JValue.jnum (Int.ofNat m)) ++ rest =
            Char.ofNat (48 + d) :: (t ++ rest) from by
          simp [renderJValue, intDecimal, hl]]
        rw [parseValue.eq_def]
        simp only [hprops.2.2.2.1, hprops.2.2.2.2.1, hprops.1, if_false, if_true,
          reduceIte]
        rw [show Char.ofNat (48 + d) :: (t ++ rest) = natDecimal m ++ rest from by
          rw [hl]; rfl]
        rw [parseNat_natDecimal m rest hrest]
        rfl
    | negSucc m =>
      rw [show renderJValue (JValue.jnum (Int.negSucc m)) ++ rest =
          '-' :: (natDecimal (m + 1) ++ rest) from by
        simp [renderJValue, intDecimal]]
      rw [parseValue.eq_def]
      simp only [Char.reduceEq, reduceIte]
      rw [parseNat_natDecimal (m + 1) rest hrest]
      simp only [Option.map_some', Option.some.injEq, Prod.mk.injEq]
      exact ⟨by rw [← Int.negSucc_coe], trivial⟩
  | jbool b =>
    cases b with
    | true =>
      rw [show renderJValue (JValue.jbool true) ++ rest =
          't' :: 'r' :: 'u' :: 'e' :: rest from rfl]
      rw [parseValue.eq_def]
      simp [List.take, List.drop]
    | false =>
      rw [show renderJValue (JValue.jbool false) ++ rest =
          'f' :: 'a' :: 'l' :: 's' :: 'e' :: rest from rfl]
      rw [parseValue.eq_def]
      simp [List.take, List.drop]
  | jnull =>
    rw [show renderJValue JValue.jnull ++ rest =
        'n' :: 'u' :: 'l' :: 'l' :: rest from rfl]
    rw [parseValue.eq_def]
    simp [List.take, List.drop]


/-! ### Small `skipWs` helpers for the punctuation the renderer emits -/

theorem skipWs_colon (l : List Char) : skipWs (':' :: l) = ':' :: l :=
  skipWs_cons_not_ws (by decide) l

theorem skipWs_comma (l : List Char) : skipWs (',' :: l) = ',' :: l :=
  skipWs_cons_not_ws (by decide) l

theorem skipWs_rbrace (l : List Char) : skipWs ('}' :: l) = '}' :: l :=
  skipWs_cons_not_ws (by decide) l

theorem skipWs_rbracket (l : List Char) : skipWs (']' :: l) = ']' :: l :=
  skipWs_cons_not_ws (by decide) l

theorem skipWs_lbrace (l : List Char) : skipWs ('{' :: l) = '{' :: l :=
  skipWs_cons_not_ws (by decide) l

theorem skipWs_lbracket (l : List Char) : skipWs ('[' :: l) = '[' :: l :=
  skipWs_cons_not_ws (by decide) l

theorem skipWs_space_renderJValue (v : JValue) (X : List Char) :
    skipWs (' ' :: (renderJValue v ++ X)) = renderJValue v ++ X := by
  obtain ⟨c0, t0, hrj, hc0⟩ := renderJValue_head_not_ws v
  rw [skipWs, List.dropWhile_cons, if_pos (by decide), hrj, List.cons_append,
    List.dropWhile_cons, if_neg (by simp [hc0]), ← List.cons_append, ← hrj]

theorem renderPair_cons (q : String × JValue) :
    renderPair q = '"' :: (escapeChars q.1.data ++ '"' :: (':' :: ' ' :: renderJValue q.2)) := by
  simp [renderPair, renderString]

theorem skipWs_renderPair (q : String × JValue) (X : List Char) :
    skipWs (renderPair q ++ X) = renderPair q ++ X := by
  rw [renderPair_cons, List.cons_append, skipWs_cons_not_ws (by decide)]

theorem skipWs_renderRecord {L : Layout} (r : List (String × JValue)) (X : List Char) :
    skipWs (renderRecord L r ++ X) = renderRecord L r ++ X := by
  cases r with
  | nil =>
    rw [renderRecord]
    simp only [List.cons_append, List.nil_append, skipWs_lbrace]
  | cons p ps =>
    rw [renderRecord]
    simp only [List.cons_append, List.append_assoc, skipWs_lbrace]

/-- Parsing the pairs of a rendered nonempty object body gives back the
pairs. -/
theorem parsePairs_render {L : Layout} (hL : L.Ws) :
    ∀ (ps : List (String × JValue)) (p : String × JValue) (fuel : Nat) (rest : List Char),
      ps.length < fuel →
      parsePairs fuel (renderPair p ++
        ((ps.map fun q => ',' :: (L.objSep ++ renderPair q)).flatten ++
          (L.objClose ++ '}' :: rest))) = some (p :: ps, rest) := by
  intro ps
  induction ps with
  | nil =>
    intro p fuel rest hfuel
    cases fuel with
    | zero => omega
    | succ f =>
      have hinput : renderPair p ++
          (((List.map (fun q => ',' :: (L.objSep ++ renderPair q)) []).flatten) ++
            (L.objClose ++ '}' :: rest)) =
          '"' :: (escapeChars p.1.data ++ '"' ::
            (':' :: (' ' :: (renderJValue p.2 ++ (L.objClose ++ '}' :: rest))))) := by
        rw [renderPair_cons]
        simp [List.append_assoc]
      rw [hinput, parsePairs.eq_def]
      simp only [psb_escape, skipWs_colon, skipWs_space_renderJValue,
        parseValue_render p.2 (L.objClose ++ '}' :: rest)
          (head_not_digit_ws hL.2.2.2.2.2 (by decide) rest),
        skipWs_append_ws hL.2.2.2.2.2, skipWs_rbrace]
  | cons q ps2 ih =>
    intro p fuel rest hfuel
    cases fuel with
    | zero => omega
    | succ f =>
      have hinput : renderPair p ++
          (((List.map (fun q => ',' :: (L.objSep ++ renderPair q)) (q :: ps2)).flatten) ++
            (L.objClose ++ '}' :: rest)) =
          '"' :: (escapeChars p.1.data ++ '"' ::
            (':' :: (' ' :: (renderJValue p.2 ++
              (',' :: (L.objSep ++ (renderPair q ++
                ((List.map (fun q => ',' :: (L.objSep ++ renderPair q)) ps2).flatten ++
                  (L.objClose ++ '}' :: rest))))))))) := by
        rw [renderPair_cons]
        simp only [List.map_cons, List.flatten_cons, List.cons_append, List.nil_append,
          List.append_assoc]
      rw [hinput, parsePairs.eq_def]
      simp only [psb_escape, skipWs_colon, skipWs_space_renderJValue,
        parseValue_render p.2
          (',' :: (L.objSep ++ (renderPair q ++
            ((List.map (fun q => ',' :: (L.objSep ++ renderPair q)) ps2).flatten ++
              (L.objClose ++ '}' :: rest)))))
          (fun x hx => by
            simp only [List.head?_cons, Option.some.injEq] at hx
            rw [← hx]; decide),
        skipWs_comma, skipWs_append_ws hL.2.2.2.2.1, skipWs_renderPair,
        ih q f rest (by simp only [List.length_cons] at hfuel; omega)]
      rfl

/-! ### Length bounds (for the fuel the parser assigns itself) -/

theorem renderPair_length_pos (p : String × JValue) : 0 < (renderPair p).length := by
  rw [renderPair_cons]
  simp

theorem flatten_pairs_length (L : Layout) (ps : List (String × JValue)) :
    ps.length ≤ ((ps.map fun q => ',' :: (L.objSep ++ renderPair q)).flatten).length := by
  induction ps with
  | nil => simp
  | cons q t ih =>
    simp only [List.map_cons, List.flatten_cons, List.length_append, List.length_cons]
    omega

theorem renderRecord_length (L : Layout) (r : List (String × JValue)) :
    r.length + 1 ≤ (renderRecord L r).length := by
  cases r with
  | nil => rw [renderRecord]; simp
  | cons p ps =>
    rw [renderRecord]
    have h1 := flatten_pairs_length L ps
    have h2 := renderPair_length_pos p
    simp only [List.cons_append, List.length_cons, List.length_append]
    omega

/-- Parsing a rendered object gives back its pairs. -/
theorem parseRecord_render {L : Layout} (hL : L.Ws) (r : List (String × JValue))
    (fuel : Nat) (rest : List Char) (hfuel : r.length ≤ fuel) :
    parseRecord fuel (renderRecord L r ++ rest) = some (r, rest) := by
  cases r with
  | nil =>
    rw [renderRecord, show ((['{', '}'] : List Char) ++ rest) = '{' :: ('}' :: rest) from rfl,
      parseRecord]
    simp [skipWs_rbrace]
  | cons p ps =>
    have hnorm : renderRecord L (p :: ps) ++ rest =
        '{' :: (L.objOpen ++ (renderPair p ++
          ((ps.map fun q => ',' :: (L.objSep ++ renderPair q)).flatten ++
            (L.objClose ++ '}' :: rest)))) := by
      rw [renderRecord]
      simp [List.cons_append, List.append_assoc]
    rw [hnorm, parseRecord]
    rw [show skipWs (L.objOpen ++ (renderPair p ++
        ((ps.map fun q => ',' :: (L.objSep ++ renderPair q)).flatten ++
          (L.objClose ++ '}' :: rest)))) =
        renderPair p ++
          ((ps.map fun q => ',' :: (L.objSep ++ renderPair q)).flatten ++
            (L.objClose ++ '}' :: rest)) from by
      rw [skipWs_append_ws hL.2.2.2.1, skipWs_renderPair]]
    rw [renderPair_cons, List.cons_append]
    simp only [Char.reduceEq, reduceIte]
    have hpp := parsePairs_render hL ps p fuel rest
      (by simp only [List.length_cons] at hfuel; omega)
    rw [renderPair_cons] at hpp
    simpa only [List.cons_append, List.append_assoc] using hpp

theorem flatten_records_length (L : Layout) (rs : JDoc) :
    rs.length ≤ ((rs.map fun q => ',' :: (L.arrSep ++ renderRecord L q)).flatten).length := by
  induction rs with
  | nil => simp
  | cons q t ih =>
    simp only [List.map_cons, List.flatten_cons, List.length_append, List.length_cons]
    omega

/-- Parsing the elements of a rendered nonempty array body gives back the
records. -/
theorem parseRecords_render {L : Layout} (hL : L.Ws) :
    ∀ (rs : JDoc) (r : List (String × JValue)) (fuel : Nat) (rest : List Char),
      rs.length < fuel →
      parseRecords fuel (renderRecord L r ++
        ((rs.map fun q => ',' :: (L.arrSep ++ renderRecord L q)).flatten ++
          (L.arrClose ++ ']' :: rest))) = some (r :: rs, rest) := by
  intro rs
  induction rs with
  | nil =>
    intro r fuel rest hfuel
    cases fuel with
    | zero => omega
    | succ f =>
      rw [parseRecords.eq_def]
      simp only [List.map_nil, List.flatten_nil, List.nil_append]
      rw [parseRecord_render hL r _ _ (by
        have h1 := renderRecord_length L r
        simp only [List.length_append]
        omega)]
      simp only []
      rw [skipWs_append_ws hL.2.2.1, skipWs_rbracket]
      rfl
  | cons q rs2 ih =>
    intro r fuel rest hfuel
    cases fuel with
    | zero => omega
    | succ f =>
      have hsplit : renderRecord L r ++
          (((q :: rs2).map fun q => ',' :: (L.arrSep ++ renderRecord L q)).flatten ++
            (L.arrClose ++ ']' :: rest)) =
          renderRecord L r ++
            (',' :: (L.arrSep ++ (renderRecord L q ++
              ((rs2.map fun q => ',' :: (L.arrSep ++ renderRecord L q)).flatten ++
                (L.arrClose ++ ']' :: rest))))) := by
        simp [List.append_assoc]
      rw [parseRecords.eq_def]
      simp only [hsplit]
      rw [parseRecord_render hL r _ _ (by
        have h1 := renderRecord_length L r
        simp only [List.length_append]
        omega)]
      simp only []
      rw [skipWs_comma]
      simp only []
      rw [skipWs_append_ws hL.2.1, skipWs_renderRecord,
        ih q f rest (by simp only [List.length_cons] at hfuel; omega)]
      rfl

theorem renderRecord_head (L : Layout) (r : List (String × JValue)) :
    ∃ t, renderRecord L r = '{' :: t := by
  cases r with
  | nil => exact ⟨['}'], rfl⟩
  | cons p ps =>
    refine ⟨L.objOpen ++ (renderPair p ++
      ((ps.map fun q => ',' :: (L.objSep ++ renderPair q)).flatten ++
        (L.objClose ++ ['}']))), ?_⟩
    rw [renderRecord]
    simp [List.cons_append, List.append_assoc]

/-- Parsing a rendered document gives it back, for any whitespace-only
layout. -/
theorem parseJson_renderDoc {L : Layout} (hL : L.Ws) (doc : JDoc) :
    parseJson (String.mk (renderDoc L doc)) = some doc := by
  cases doc with
  | nil => rfl
  | cons r rs =>
    obtain ⟨t0, ht0⟩ := renderRecord_head L r
    have hdata : (String.mk (renderDoc L (r :: rs))).data =
        '[' :: (L.arrOpen ++ (renderRecord L r ++
          ((rs.map fun q => ',' :: (L.arrSep ++ renderRecord L q)).flatten ++
            (L.arrClose ++ (']' :: []))))) := by
      rw [show (String.mk (renderDoc L (r :: rs))).data = renderDoc L (r :: rs) from rfl,
        renderDoc]
      simp [List.cons_append, List.append_assoc]
    rw [parseJson.eq_def, hdata, skipWs_lbracket]
    simp only []
    rw [skipWs_append_ws hL.1, skipWs_renderRecord, ht0, List.cons_append]
    simp only [Char.reduceEq, reduceIte]
    rw [← List.cons_append, ← ht0]
    rw [parseRecords_render hL rs r _ [] (by
      have h1 := renderRecord_length L r
      have h2 := flatten_records_length L rs
      simp only [List.length_cons, List.length_append]
      omega)]
    rfl

/-! ## Putting the pipeline and the parser together -/

/-- Under the Loader typing guarantees, serializing the normalized frame
succeeds; the document has one object per record and every object is a
serialized record. -/
theorem clean_toJsonDoc?_some (df : DataFrame)
    (hdt : df.DatesTyped) (hnd : df.NoMissingDates) :
    ∃ doc, (clean_dataframe df).1.toJsonDoc? = some doc ∧
      doc.length = (clean_dataframe df).1.toRecords.length ∧
      ∀ rj ∈ doc, ∃ rec, rec ∈ (clean_dataframe df).1.toRecords ∧
        recordToJson? rec = some rj := by
  have hser : ∀ rec ∈ (clean_dataframe df).1.toRecords, ∀ p ∈ rec,
      (Cell.toJson? p.2).isSome = true := by
    intro rec hrec p hp
    obtain ⟨col, hcol, _, hv⟩ := toRecords_mem _ rec hrec p hp
    exact clean_serializable df (fun c0 hc0 c hc hd => hdt c0 hc0 c hc hd)
      (fun c0 hc0 hcd c hc => by simpa using hnd c0 hc0 hcd c hc)
      col hcol p.2 hv
  obtain ⟨doc, hdoc, hlen, hmem⟩ := mapM_recordToJson?_some _ hser
  exact ⟨doc, hdoc, hlen, hmem⟩

/-- **C4** — round-trip: under the Loader typing guarantees, the
serializer succeeds on the normalized frame, parsing the JSON string it
returns recovers the serialized document, that document has exactly one
object per input row, and every object's key set is exactly the set of
sanitized column names. -/
theorem C4_json_roundtrip :
    ∀ (df : DataFrame) (out : Option String) (pretty : Bool),
      df.WellFormed → df.DatesTyped → df.NoMissingDates →
      ∃ doc s written msgs,
        convert_to_json (clean_dataframe df).1 out pretty =
          ConvResult.success s written msgs ∧
        parseJson s = some doc ∧
        doc.length = df.nrows ∧
        ∀ rj ∈ doc, ∀ k : String,
          k ∈ rj.map Prod.fst ↔ k ∈ df.names.map cleanName := by
  intro df out pretty hwf hdt hnd
  obtain ⟨doc, hdoc, hlen, hmem⟩ := clean_toJsonDoc?_some df hdt hnd
  have hparse : parseJson (json_dumps doc pretty) = some doc := by
    cases pretty with
    | true => exact parseJson_renderDoc prettyLayout_ws doc
    | false => exact parseJson_renderDoc compactLayout_ws doc
  have hnrows : DataFrame.nrows (clean_dataframe df).1 = df.nrows := clean_nrows df
  have hdoclen : doc.length = df.nrows := by
    rw [hlen, DataFrame.toRecords, List.length_map, List.length_range, hnrows]
  have hkeys : ∀ rj ∈ doc, ∀ k : String,
      k ∈ rj.map Prod.fst ↔ k ∈ df.names.map cleanName := by
    intro rj hrj k
    obtain ⟨rec, hrec, hrecj⟩ := hmem rj hrj
    rw [recordToJson?_keys rec rj hrecj]
    obtain ⟨i, hi, rfl⟩ := List.mem_map.1 hrec
    rw [List.mem_range, hnrows] at hi
    have hlt : ∀ col ∈ (clean_dataframe df).1, i < col.cells.length := by
      intro col hcol
      rw [clean_wellFormed df hwf col hcol, clean_nrows]
      exact hi
    rw [keys_rowRecord _ i hlt k, clean_names]
  refine ⟨doc, json_dumps doc pretty, ?_⟩
  cases out with
  | none =>
    refine ⟨[], [], ?_, hparse, hdoclen, hkeys⟩
    rw [convert_to_json, hdoc]
  | some p =>
    refine ⟨[(p, json_dumps doc pretty)], ["✓ Saved JSON to: " ++ p], ?_,
      hparse, hdoclen, hkeys⟩
    rw [convert_to_json, hdoc]

/-- **C4** witness — the round-trip applied to a concrete two-row frame
with a name needing sanitation. -/
theorem C4_witness :
    ∃ doc s written msgs,
      convert_to_json
          (clean_dataframe [⟨"Clave SAT", Dtype.object, [Cell.str "01", Cell.num 5]⟩]).1
          (some "salida.json") false =
        ConvResult.success s written msgs ∧
      parseJson s = some doc ∧
      doc.length = DataFrame.nrows [⟨"Clave SAT", Dtype.object, [Cell.str "01", Cell.num 5]⟩] ∧
      ∀ rj ∈ doc, ∀ k : String,
        k ∈ rj.map Prod.fst ↔
          k ∈ (DataFrame.names [⟨"Clave SAT", Dtype.object, [Cell.str "01", Cell.num 5]⟩]).map cleanName :=
  C4_json_roundtrip [⟨"Clave SAT", Dtype.object, [Cell.str "01", Cell.num 5]⟩]
    (some "salida.json") false (by decide) (by decide) (by decide)

/-! ## Whitespace discipline of the two output modes -/

theorem hexDigitChar_ne_newline {d : Nat} (h : d < 16) : hexDigitChar d ≠ '\n' := by
  interval_cases d <;> decide

/-- The `json.dumps` escaping never emits a literal newline. -/
theorem escChar_no_newline (c : Char) : ∀ x ∈ escChar c, x ≠ '\n' := by
  intro x hx
  rw [escChar] at hx
  split_ifs at hx with h1 h2 h3 h4 h5 h6 h7 h8
  · simp only [List.mem_cons, List.mem_singleton, List.not_mem_nil, or_false] at hx
    rcases hx with rfl | rfl <;> decide
  · simp only [List.mem_cons, List.mem_singleton, List.not_mem_nil, or_false] at hx
    rcases hx with rfl | rfl <;> decide
  · simp only [List.mem_cons, List.mem_singleton, List.not_mem_nil, or_false] at hx
    rcases hx with rfl | rfl <;> decide
  · simp only [List.mem_cons, List.mem_singleton, List.not_mem_nil, or_false] at hx
    rcases hx with rfl | rfl <;> decide
  · simp only [List.mem_cons, List.mem_singleton, List.not_mem_nil, or_false] at hx
    rcases hx with rfl | rfl <;> decide
  · simp only [List.mem_cons, List.mem_singleton, List.not_mem_nil, or_false] at hx
    rcases hx with rfl | rfl <;> decide
  · simp only [List.mem_cons, List.mem_singleton, List.not_mem_nil, or_false] at hx
    rcases hx with rfl | rfl <;> decide
  · simp only [List.mem_cons, List.mem_singleton, List.not_mem_nil, or_false] at hx
    rcases hx with rfl | rfl | rfl | rfl | rfl | rfl
    · decide
    · decide
    · decide
    · decide
    · exact hexDigitChar_ne_newline (by omega)
    · exact hexDigitChar_ne_newline (by omega)
  · simp only [List.mem_singleton] at hx
    subst hx
    intro hc
    rw [hc] at h8
    exact h8 (by decide)

theorem escapeChars_no_newline (l : List Char) : ∀ x ∈ escapeChars l, x ≠ '\n' := by
  intro x hx
  rw [escapeChars] at hx
  obtain ⟨piece, hpiece, hxp⟩ := List.mem_flatten.1 hx
  obtain ⟨c, _, rfl⟩ := List.mem_map.1 hpiece
  exact escChar_no_newline c x hxp

theorem renderString_no_newline (s : String) : ∀ x ∈ renderString s, x ≠ '\n' := by
  intro x hx
  rw [renderString] at hx
  rcases List.mem_cons.1 hx with rfl | hx2
  · decide
  · rcases List.mem_append.1 hx2 with h | h
    · exact escapeChars_no_newline s.data x h
    · simp only [List.mem_singleton] at h; subst h; decide

theorem natDecimal_no_newline (n : Nat) : ∀ x ∈ natDecimal n, x ≠ '\n' := by
  intro x hx
  obtain ⟨d, hd, rfl⟩ := natDecimal_mem x hx
  exact (digitChar_props hd).2.2.2.2.2

theorem renderJValue_no_newline (v : JValue) : ∀ x ∈ renderJValue v, x ≠ '\n' := by
  intro x hx
  cases v with
  | jstr s => exact renderString_no_newline s x hx
  | jnum n =>
    cases n with
    | ofNat m => exact natDecimal_no_newline m x hx
    | negSucc m =>
      rcases List.mem_cons.1 hx with rfl | hx2
      · decide
      · exact natDecimal_no_newline (m + 1) x hx2
  | jbool b =>
    cases b with
    | false =>
      have h2 : x = 'f' ∨ x = 'a' ∨ x = 'l' ∨ x = 's' ∨ x = 'e' := by simpa [renderJValue] using hx
      rcases h2 with rfl | rfl | rfl | rfl | rfl <;> decide
    | true =>
      have h2 : x = 't' ∨ x = 'r' ∨ x = 'u' ∨ x = 'e' := by simpa [renderJValue] using hx
      rcases h2 with rfl | rfl | rfl | rfl <;> decide
  | jnull =>
    have h2 : x = 'n' ∨ x = 'u' ∨ x = 'l' := by simpa [renderJValue] using hx
    rcases h2 with rfl | rfl | rfl <;> decide

theorem renderPair_no_newline (p : String × JValue) : ∀ x ∈ renderPair p, x ≠ '\n' := by
  intro x hx
  rw [renderPair] at hx
  rcases List.mem_append.1 hx with h | h
  · exact renderString_no_newline p.1 x h
  · rcases List.mem_cons.1 h with rfl | h2
    · decide
    · rcases List.mem_cons.1 h2 with rfl | h3
      · decide
      · exact renderJValue_no_newline p.2 x h3

theorem renderRecord_compact_no_newline (r : List (String × JValue)) :
    ∀ x ∈ renderRecord compactLayout r, x ≠ '\n' := by
  intro x hx
  cases r with
  | nil =>
    rw [renderRecord] at hx
    have h2 : x = '\x7b' ∨ x = '\x7d' := by simpa using hx
    rcases h2 with rfl | rfl <;> decide
  | cons p ps =>
    rw [renderRecord] at hx
    simp only [compactLayout, List.cons_append, List.nil_append, List.append_nil,
      List.mem_cons, List.mem_append, List.mem_flatten, List.mem_map] at hx
    rcases hx with rfl | (h | ⟨l2, ⟨a, _, rfl⟩, hxl⟩) | rfl | h
    · decide
    · exact renderPair_no_newline p x h
    · rcases List.mem_cons.1 hxl with rfl | h2
      · decide
      · rcases List.mem_cons.1 h2 with rfl | h3
        · decide
        · exact renderPair_no_newline a x h3
    · decide
    · simp at h

/-- The compact rendering is a single line. -/
theorem renderDoc_compact_no_newline (doc : JDoc) :
    ∀ x ∈ renderDoc compactLayout doc, x ≠ '\n' := by
  intro x hx
  cases doc with
  | nil =>
    rw [renderDoc] at hx
    have h2 : x = '[' ∨ x = ']' := by simpa using hx
    rcases h2 with rfl | rfl <;> decide
  | cons r rs =>
    rw [renderDoc] at hx
    simp only [compactLayout, List.cons_append, List.nil_append, List.append_nil,
      List.mem_cons, List.mem_append, List.mem_flatten, List.mem_map] at hx
    rcases hx with rfl | (h | ⟨l2, ⟨a, _, rfl⟩, hxl⟩) | rfl | h
    · decide
    · exact renderRecord_compact_no_newline r x h
    · rcases List.mem_cons.1 hxl with rfl | h2
      · decide
      · rcases List.mem_cons.1 h2 with rfl | h3
        · decide
        · exact renderRecord_compact_no_newline a x h3
    · decide
    · simp at h

/-- With `ensure_ascii=False`, characters beyond ASCII are kept literal,
never escaped. -/
theorem escChar_nonascii : ∀ c : Char, 127 < c.toNat → escChar c = [c] := by
  intro c h
  have h1 : ¬ (c = '"') := fun he => by rw [he] at h; exact absurd h (by decide)
  have h2 : ¬ (c = '\\') := fun he => by rw [he] at h; exact absurd h (by decide)
  have h3 : ¬ (c = '\n') := fun he => by rw [he] at h; exact absurd h (by decide)
  have h4 : ¬ (c = '\t') := fun he => by rw [he] at h; exact absurd h (by decide)
  have h5 : ¬ (c = '\r') := fun he => by rw [he] at h; exact absurd h (by decide)
  have h6 : ¬ (c.toNat = 8) := by omega
  have h7 : ¬ (c.toNat = 12) := by omega
  have h8 : ¬ (c.toNat < 32) := by omega
  rw [escChar, if_neg h1, if_neg h2, if_neg h3, if_neg h4, if_neg h5, if_neg h6,
    if_neg h7, if_neg h8]

/-- A pretty rendering of a nonempty document spans several lines. -/
theorem renderDoc_pretty_multiline (doc : JDoc) (h : doc ≠ []) :
    '\n' ∈ renderDoc prettyLayout doc := by
  cases doc with
  | nil => exact absurd rfl h
  | cons r rs =>
    rw [renderDoc]
    simp [prettyLayout, List.mem_cons, List.mem_append]

/-- **C8** — output modes: on any serializable frame the serializer in
compact mode returns a single-line JSON string (no newline anywhere,
escaped or not) and in pretty mode a multi-line string; both parse back
to the very same document, so they carry the same data modulo
whitespace; non-ASCII characters are never escaped; and the pretty mode
indents with two spaces per level, as the concrete rendering shows. -/
theorem C8_output_modes :
    (∀ (df : DataFrame) (doc : JDoc), df.toJsonDoc? = some doc →
      convert_to_json df none false = ConvResult.success (json_dumps doc false) [] [] ∧
      convert_to_json df none true = ConvResult.success (json_dumps doc true) [] [] ∧
      (¬ '\n' ∈ (json_dumps doc false).data) ∧
      parseJson (json_dumps doc false) = some doc ∧
      parseJson (json_dumps doc true) = some doc ∧
      (doc ≠ [] → '\n' ∈ (json_dumps doc true).data)) ∧
    (∀ c : Char, 127 < c.toNat → escChar c = [c]) ∧
    json_dumps [[("a", JValue.jnum 1)]] true =
      "[\n  \x7b\n    \"a\": 1\n  \x7d\n]" := by
  refine ⟨?_, escChar_nonascii, by decide⟩
  intro df doc h
  refine ⟨?_, ?_, ?_, parseJson_renderDoc compactLayout_ws doc,
    parseJson_renderDoc prettyLayout_ws doc, ?_⟩
  · rw [convert_to_json, h]
  · rw [convert_to_json, h]
  · intro hmem
    exact renderDoc_compact_no_newline doc '\n' hmem rfl
  · intro hne
    exact renderDoc_pretty_multiline doc hne

/-- **C8** witness — the output-mode guarantees at a concrete one-row
frame holding a non-ASCII string. -/
theorem C8_witness :
    convert_to_json [⟨"a", Dtype.object, [Cell.str "Código"]⟩] none false =
      ConvResult.success (json_dumps [[("a", JValue.jstr "Código")]] false) [] [] ∧
    convert_to_json [⟨"a", Dtype.object, [Cell.str "Código"]⟩] none true =
      ConvResult.success (json_dumps [[("a", JValue.jstr "Código")]] true) [] [] ∧
    (¬ '\n' ∈ (json_dumps [[("a", JValue.jstr "Código")]] false).data) ∧
    parseJson (json_dumps [[("a", JValue.jstr "Código")]] false) =
      some [[("a", JValue.jstr "Código")]] ∧
    parseJson (json_dumps [[("a", JValue.jstr "Código")]] true) =
      some [[("a", JValue.jstr "Código")]] ∧
    '\n' ∈ (json_dumps [[("a", JValue.jstr "Código")]] true).data ∧
    escChar 'ó' = ['ó'] :=
  have h := C8_output_modes.1 [⟨"a", Dtype.object, [Cell.str "Código"]⟩]
    [[("a", JValue.jstr "Código")]] (by decide)
  ⟨h.1, h.2.1, h.2.2.1, h.2.2.2.1, h.2.2.2.2.1,
    h.2.2.2.2.2 (by decide), C8_output_modes.2.1 'ó' (by decide)⟩

/-! ## Failure handling and effects of the CLI driver -/

/-- **C5** — Loader failure: whenever the input path does not exist, the
file cannot be read as a spreadsheet, or the named sheet is missing
(both surfacing as the `pd.read_excel` outcome), the process exits with
status 1 after printing a user-facing message (naming the missing path,
or carrying the underlying cause), and no output file is written. -/
theorem C5_loader_failure :
    ∀ (args : Args) (outcome : ReadOutcome),
      (main_v2 args false outcome =
        ⟨["✗ Excel file not found: " ++ args.excel_file], [], 1⟩) ∧
      ((main_v2 args true ReadOutcome.fileNotFound).exitCode = 1 ∧
        (main_v2 args true ReadOutcome.fileNotFound).written = [] ∧
        ("✗ File not found: " ++ args.excel_file) ∈
          (main_v2 args true ReadOutcome.fileNotFound).stdout) ∧
      (∀ e : String,
        (main_v2 args true (ReadOutcome.readError e)).exitCode = 1 ∧
        (main_v2 args true (ReadOutcome.readError e)).written = [] ∧
        ("✗ Error reading Excel file: " ++ e) ∈
          (main_v2 args true (ReadOutcome.readError e)).stdout) := by
  intro args outcome
  refine ⟨rfl, ⟨rfl, rfl, ?_⟩, fun e => ⟨rfl, rfl, ?_⟩⟩
  · show _ ∈ headerLines args "Excel to JSON Converter" "First sheet" "Output: " ++
      ["✗ File not found: " ++ args.excel_file]
    exact List.mem_append_right _ (List.mem_singleton.mpr rfl)
  · show _ ∈ headerLines args "Excel to JSON Converter" "First sheet" "Output: " ++
      ["✗ Error reading Excel file: " ++ e]
    exact List.mem_append_right _ (List.mem_singleton.mpr rfl)

/-- **C9** — serializer frame effects: with no output path the JSON
string is returned and no file is touched (and nothing printed); with an
output path, exactly the returned string is written to that path
(creating or overwriting it) and a confirmation line naming the path is
printed. -/
theorem C9_serializer_effects :
    ∀ (df : DataFrame) (doc : JDoc) (pretty : Bool) (p : String),
      df.toJsonDoc? = some doc →
      convert_to_json df none pretty =
        ConvResult.success (json_dumps doc pretty) [] [] ∧
      convert_to_json df (some p) pretty =
        ConvResult.success (json_dumps doc pretty) [(p, json_dumps doc pretty)]
          ["✓ Saved JSON to: " ++ p] := by
  intro df doc pretty p h
  constructor
  · rw [convert_to_json, h]
  · rw [convert_to_json, h]

/-- **C9** witness — the frame effects at a concrete one-row frame. -/
theorem C9_witness :
    convert_to_json [⟨"A", Dtype.object, [Cell.str "x"]⟩] none true =
      ConvResult.success (json_dumps [[("A", JValue.jstr "x")]] true) [] [] ∧
    convert_to_json [⟨"A", Dtype.object, [Cell.str "x"]⟩] (some "salida.json") true =
      ConvResult.success (json_dumps [[("A", JValue.jstr "x")]] true)
        [("salida.json", json_dumps [[("A", JValue.jstr "x")]] true)]
        ["✓ Saved JSON to: salida.json"] :=
  C9_serializer_effects [⟨"A", Dtype.object, [Cell.str "x"]⟩]
    [[("A", JValue.jstr "x")]] true "salida.json" (by decide)

/-- When the path exists, the read succeeds and the cleaned frame is
serializable, `main` (first definition set) returns normally and writes
the JSON exactly when an output path was given. -/
theorem main_v1_ok_shape (args : Args) (df : DataFrame) (doc : JDoc)
    (h : (clean_dataframe_v1 df).1.toJsonDoc? = some doc) :
    (main_v1 args true (ReadOutcome.ok df)).exitCode = 0 ∧
    (main_v1 args true (ReadOutcome.ok df)).written =
      (match args.output with
       | some o => [(o, json_dumps doc (¬ args.compact))]
       | none => []) := by
  have h2 : DataFrame.toJsonDoc?
      (DataFrame.cleanColumns (DataFrame.convertDatetimeCols (DataFrame.fillna df))) =
        some doc := h
  cases hout : args.output with
  | none =>
    simp [main_v1, read_excel_file_v1, clean_dataframe_v1, convert_to_json_v1, h2, hout]
  | some o =>
    simp [main_v1, read_excel_file_v1, clean_dataframe_v1, convert_to_json_v1, h2, hout]

/-- Same for the second definition set. -/
theorem main_v2_ok_shape (args : Args) (df : DataFrame) (doc : JDoc)
    (h : (clean_dataframe df).1.toJsonDoc? = some doc) :
    (main_v2 args true (ReadOutcome.ok df)).exitCode = 0 ∧
    (main_v2 args true (ReadOutcome.ok df)).written =
      (match args.output with
       | some o => [(o, json_dumps doc (¬ args.compact))]
       | none => []) := by
  have h2 : DataFrame.toJsonDoc?
      (DataFrame.convertDatetimeCols (DataFrame.cleanColumns (DataFrame.fillna df))) =
        some doc := h
  cases hout : args.output with
  | none =>
    simp [main_v2, read_excel_file, clean_dataframe, convert_to_json, h2, hout]
  | some o =>
    simp [main_v2, read_excel_file, clean_dataframe, convert_to_json, h2, hout]

/-- **C6** — the module runs `main` twice: executed as a script,
`converter.py` is the first definition set, a `main()` guard, the second
definition set, and another guard; on a successful conversion the guard
at line 139 runs the first `main` and the guard at lines 290-291 runs
the redefined second one, so the progress output of both runs is printed
and, when an output path is given, the output file is written twice —
first with the first definition set's JSON, then with the second's (the
two documents coincide on collision-free frames, but can differ when a
sanitized name collides with a datetime column's, see `C6_witness`). -/
theorem C6_module_double_run :
    converterModule = [TopStmt.defs 1, TopStmt.guardMain, TopStmt.defs 2, TopStmt.guardMain] ∧
    mainOf 1 = main_v1 ∧ mainOf 2 = main_v2 ∧
    (∀ (args : Args) (df : DataFrame) (doc1 doc2 : JDoc),
      (clean_dataframe_v1 df).1.toJsonDoc? = some doc1 →
      (clean_dataframe df).1.toJsonDoc? = some doc2 →
      (runScript args true (ReadOutcome.ok df)).2 = [1, 2] ∧
      (runScript args true (ReadOutcome.ok df)).1.stdout =
        (main_v1 args true (ReadOutcome.ok df)).stdout ++
          (main_v2 args true (ReadOutcome.ok df)).stdout ∧
      (runScript args true (ReadOutcome.ok df)).1.exitCode = 0 ∧
      (∀ o, args.output = some o →
        (runScript args true (ReadOutcome.ok df)).1.written =
          [(o, json_dumps doc1 (¬ args.compact)),
           (o, json_dumps doc2 (¬ args.compact))])) := by
  refine ⟨rfl, rfl, rfl, ?_⟩
  intro args df doc1 doc2 h1 h2
  obtain ⟨he1, hw1⟩ := main_v1_ok_shape args df doc1 h1
  obtain ⟨he2, hw2⟩ := main_v2_ok_shape args df doc2 h2
  have hrun : runScript args true (ReadOutcome.ok df) =
      (⟨(main_v1 args true (ReadOutcome.ok df)).stdout ++
          ((main_v2 args true (ReadOutcome.ok df)).stdout ++ []),
        (main_v1 args true (ReadOutcome.ok df)).written ++
          ((main_v2 args true (ReadOutcome.ok df)).written ++ []), 0⟩,
       [1, 2]) := by
    rw [runScript, converterModule]
    rw [execStmts, execStmts]
    rw [show mainOf 1 = main_v1 from rfl]
    rw [if_pos rfl, if_pos he1]
    rw [execStmts, execStmts]
    rw [show mainOf 2 = main_v2 from rfl]
    rw [if_pos rfl, if_pos he2]
    rw [execStmts]
  rw [hrun]
  refine ⟨rfl, by simp, rfl, ?_⟩
  intro o ho
  rw [hw1, hw2, ho] at *
  simp [hw1, hw2, ho]

/-- **C6** witness — the double run at a concrete invocation with an
output path, on a frame whose sanitized names collide with a datetime
column's: the file is written twice, first with the integer value the
first definition set keeps, then with the stringified value the second
definition set produces. -/
theorem C6_witness :
    (runScript ⟨"f.xlsx", none, some "o.json", false, false⟩ true
        (ReadOutcome.ok
          [⟨"Fecha (ISO)", Dtype.datetime, [Cell.dt ⟨2025, 6, 18, 0, 0, 0, none⟩]⟩,
           ⟨"Fecha_ISO", Dtype.int64, [Cell.num 5]⟩])).2 = [1, 2] ∧
    (runScript ⟨"f.xlsx", none, some "o.json", false, false⟩ true
        (ReadOutcome.ok
          [⟨"Fecha (ISO)", Dtype.datetime, [Cell.dt ⟨2025, 6, 18, 0, 0, 0, none⟩]⟩,
           ⟨"Fecha_ISO", Dtype.int64, [Cell.num 5]⟩])).1.stdout =
      (main_v1 ⟨"f.xlsx", none, some "o.json", false, false⟩ true
          (ReadOutcome.ok
            [⟨"Fecha (ISO)", Dtype.datetime, [Cell.dt ⟨2025, 6, 18, 0, 0, 0, none⟩]⟩,
             ⟨"Fecha_ISO", Dtype.int64, [Cell.num 5]⟩])).stdout ++
        (main_v2 ⟨"f.xlsx", none, some "o.json", false, false⟩ true
          (ReadOutcome.ok
            [⟨"Fecha (ISO)", Dtype.datetime, [Cell.dt ⟨2025, 6, 18, 0, 0, 0, none⟩]⟩,
             ⟨"Fecha_ISO", Dtype.int64, [Cell.num 5]⟩])).stdout ∧
    (runScript ⟨"f.xlsx", none, some "o.json", false, false⟩ true
        (ReadOutcome.ok
          [⟨"Fecha (ISO)", Dtype.datetime, [Cell.dt ⟨2025, 6, 18, 0, 0, 0, none⟩]⟩,
           ⟨"Fecha_ISO", Dtype.int64, [Cell.num 5]⟩])).1.exitCode = 0 ∧
    (runScript ⟨"f.xlsx", none, some "o.json", false, false⟩ true
        (ReadOutcome.ok
          [⟨"Fecha (ISO)", Dtype.datetime, [Cell.dt ⟨2025, 6, 18, 0, 0, 0, none⟩]⟩,
           ⟨"Fecha_ISO", Dtype.int64, [Cell.num 5]⟩])).1.written =
      [("o.json", json_dumps [[("Fecha_ISO", JValue.jnum 5)]] (¬ false)),
       ("o.json", json_dumps [[("Fecha_ISO", JValue.jstr "5")]] (¬ false))] :=
  have h := C6_module_double_run.2.2.2 ⟨"f.xlsx", none, some "o.json", false, false⟩
    [⟨"Fecha (ISO)", Dtype.datetime, [Cell.dt ⟨2025, 6, 18, 0, 0, 0, none⟩]⟩,
     ⟨"Fecha_ISO", Dtype.int64, [Cell.num 5]⟩]
    [[("Fecha_ISO", JValue.jnum 5)]] [[("Fecha_ISO", JValue.jstr "5")]]
    (by decide) (by decide)
  ⟨h.1, h.2.1, h.2.2.1, h.2.2.2 "o.json" rfl⟩
